import Mathlib

/-!
# Escape The Program: the game-state update logic of `src/src/game.jsx`

A shallow embedding of the React component `Game`: the module-level table
`LEVELS` and the component's `useState` cells become one record `GameState`,
every handler (`handleKey`, `onDeath`, `submitAnswer`, the two interval
callbacks, the Cancel button) becomes a function on that record, and the
browser dialogs `alert` and `prompt` become a list of `Effect`s returned next
to the new state.  The text the user types into `prompt` is an argument of
`handleKey`.  A handler that dereferences `LEVELS[levelIndex]` when that entry
is `undefined` throws; this is the result `none`.
-/

namespace EscapeTheProgram

/-! ## Data model -/

/-- The player position `{ x, y }` (the player's box is 30 by 30). -/
structure Pos where
  x : Int
  y : Int
deriving DecidableEq

/-- A rectangle `{ x, y, w, h }`: static obstacles and enemies. -/
structure Rect where
  x : Int
  y : Int
  w : Int
  h : Int
deriving DecidableEq

/-- The `exit` object of a level. -/
structure Exit where
  x : Int
  y : Int
  locked : Bool
  code : String
deriving DecidableEq

/-- An entry of `moving`: a rectangle with a horizontal velocity `dx`. -/
structure Moving where
  x : Int
  y : Int
  w : Int
  h : Int
  dx : Int
deriving DecidableEq

/-- An entry of `powerups`. -/
structure PowerUp where
  id : String
  type : String
  x : Int
  y : Int
  w : Int
  h : Int
  question : String
  answer : String
  collected : Bool
deriving DecidableEq

/-- One entry of `LEVELS`. -/
structure Level where
  exit : Exit
  obstacles : List Rect
  enemies : List Rect
  moving : List Moving
  powerups : List PowerUp
deriving DecidableEq

/-- The module-level `LEVELS` together with the `useState` cells of `Game`. -/
structure GameState where
  levels : List Level
  levelIndex : Nat
  player : Pos
  lives : Int
  timeLeft : Int
  gameOver : Bool
  activeQuestion : Option PowerUp
  answerInput : String
deriving DecidableEq

/-- The fields of a `keydown` event that `handleKey` reads: `e.key` and `e.repeat`. -/
structure KeyEvent where
  key : String
  isRepeat : Bool
deriving DecidableEq

/-- A browser dialog opened by a handler. -/
inductive Effect where
  | alert (msg : String)
  | prompt (msg : String)
deriving DecidableEq

/-! ## Built-in string operations -/

/-- White space and line terminators of ECMAScript, the characters `trim` strips. -/
def isJsWhiteSpace (c : Char) : Bool :=
  let n := c.toNat
  n == 9 || n == 10 || n == 11 || n == 12 || n == 13 || n == 32 || n == 160 ||
  n == 5760 || (8192 ≤ n && n ≤ 8202) || n == 8232 || n == 8233 || n == 8239 ||
  n == 8287 || n == 12288 || n == 65279

/-- Strip white space from both ends of a character list. -/
def trimChars (l : List Char) : List Char :=
  ((l.dropWhile isJsWhiteSpace).reverse.dropWhile isJsWhiteSpace).reverse

/-- The built-in `String.prototype.trim`. -/
def jsTrim (s : String) : String := ⟨trimChars s.data⟩

/-- Lower-case one character.  The built-in is modelled on the letters `A` to `Z`;
every other character is left as it is. -/
def lowerChar (c : Char) : Char :=
  if 65 ≤ c.toNat ∧ c.toNat ≤ 90 then Char.ofNat (c.toNat + 32) else c

/-- The built-in `String.prototype.toLowerCase`. -/
def toLowerCase (s : String) : String := ⟨s.data.map lowerChar⟩

/-! ## Level data -/

/-- The table `LEVELS_TEMPLATE`; `e1` and `e2` are the two results of `randomExit()`. -/
def LEVELS_TEMPLATE (e1 e2 : Pos) : List Level :=
  [ { exit := { x := e1.x, y := e1.y, locked := true, code := "unlockDoor()" }
      obstacles := [ { x := 90, y := 100, w := 60, h := 18 },
                     { x := 160, y := 200, w := 18, h := 60 } ]
      enemies := [ { x := 200, y := 80, w := 28, h := 28 } ]
      moving := []
      powerups :=
        [ { id := "l1p1", type := "time", x := 40, y := 220, w := 26, h := 26,
            question := "What is 2 + 3 in JavaScript?", answer := "5", collected := false },
          { id := "l1p2", type := "life", x := 220, y := 30, w := 26, h := 26,
            question := "Which keyword declares a variable in JS?", answer := "let",
            collected := false } ] },
    { exit := { x := e2.x, y := e2.y, locked := true, code := "unlockDoor()" }
      obstacles := [ { x := 50, y := 50, w := 140, h := 18 } ]
      enemies := [ { x := 200, y := 150, w := 28, h := 28 } ]
      moving := [ { x := 150, y := 100, w := 40, h := 16, dx := 2 } ]
      powerups :=
        [ { id := "l2p1", type := "time", x := 120, y := 200, w := 26, h := 26,
            question := "Which operator is strict equality in JS?", answer := "===",
            collected := false },
          { id := "l2p2", type := "life", x := 60, y := 180, w := 26, h := 26,
            question := "What is 1 + 1?", answer := "2", collected := false } ] } ]

/-- The clone `LEVELS` of the template, made once at module load. -/
def LEVELS (e1 e2 : Pos) : List Level := LEVELS_TEMPLATE e1 e2

/-- The state of a freshly mounted `Game`. -/
def initialState (e1 e2 : Pos) : GameState :=
  { levels := LEVELS e1 e2
    levelIndex := 0
    player := { x := 10, y := 10 }
    lives := 3
    timeLeft := 30
    gameOver := false
    activeQuestion := none
    answerInput := "" }

/-- The binding `const level = LEVELS[levelIndex]`. -/
def level (s : GameState) : Option Level := s.levels[s.levelIndex]?

/-- Write back the current level after an in-place mutation of `LEVELS[levelIndex]`. -/
def setLevel (s : GameState) (lv : Level) : GameState :=
  { s with levels := s.levels.set s.levelIndex lv }

/-! ## Collision -/

/-- The helper `hit(p, o)`. -/
def hit (p : Pos) (o : Rect) : Bool :=
  decide (p.x < o.x + o.w) && decide (p.x + 30 > o.x) &&
  decide (p.y < o.y + o.h) && decide (p.y + 30 > o.y)

/-- The rectangle fields of a power-up, as `hit` reads them. -/
def PowerUp.rect (pu : PowerUp) : Rect := { x := pu.x, y := pu.y, w := pu.w, h := pu.h }

/-- The rectangle fields of a moving obstacle, as `hit` reads them. -/
def Moving.rect (m : Moving) : Rect := { x := m.x, y := m.y, w := m.w, h := m.h }

/-- The helper `detectPowerup(p)`: the first uncollected power-up that `p` hits. -/
def detectPowerup (lv : Level) (p : Pos) : Option PowerUp :=
  lv.powerups.find? (fun pu => !pu.collected && hit p pu.rect)

/-- The count `level.powerups.filter(p => !p.collected).length`. -/
def remaining (lv : Level) : Nat := (lv.powerups.filter (fun p => !p.collected)).length

/-! ## Death -/

/-- The handler `onDeath`. -/
def onDeath (s : GameState) : GameState :=
  let next := max 0 (s.lives - 1)
  { s with
    lives := next
    gameOver := if next = 0 then true else s.gameOver
    player := { x := 10, y := 10 }
    timeLeft := 30 }

/-! ## Key presses -/

/-- The candidate position `newP` of `handleKey`: one step of 20, then the clamp. -/
def candidate (p : Pos) (e : KeyEvent) : Pos :=
  let k := toLowerCase e.key
  let nx := p.x
  let ny := p.y
  let ny := if k = "arrowup" ∨ k = "w" then ny - 20 else ny
  let ny := if k = "arrowdown" ∨ k = "s" then ny + 20 else ny
  let nx := if k = "arrowleft" ∨ k = "a" then nx - 20 else nx
  let nx := if k = "arrowright" ∨ k = "d" then nx + 20 else nx
  { x := max 0 (min 270 nx), y := max 0 (min 270 ny) }

/-- The listener `handleKey`; `reply` is what `prompt` returns should it be called
(`none` for a dismissed dialog). -/
def handleKey (s : GameState) (e : KeyEvent) (reply : Option String) :
    Option (GameState × List Effect) :=
  if e.isRepeat then some (s, [])
  else if s.gameOver || s.activeQuestion.isSome then some (s, [])
  else
    let newP := candidate s.player e
    match level s with
    | none => none
    | some lv =>
      if lv.enemies.any (fun en => hit newP en) then some (onDeath s, [])
      else if lv.obstacles.any (fun ob => hit newP ob) ||
          lv.moving.any (fun mov => hit newP mov.rect) then some (s, [])
      else
        match detectPowerup lv newP with
        | some pu => some ({ s with activeQuestion := some pu, answerInput := "" }, [])
        | none =>
          let ex := lv.exit
          if hit newP { x := ex.x, y := ex.y, w := 32, h := 32 } then
            if ex.locked then
              if remaining lv > 0 then
                some (s, [Effect.alert ("Door is locked. Collect all power-ups first (" ++
                  toString (remaining lv) ++ " left).")])
              else if reply = some ex.code then
                some (setLevel s { lv with exit := { ex with locked := false } },
                  [Effect.prompt "Enter code to unlock door:", Effect.alert "Door unlocked!"])
              else
                some (s, [Effect.prompt "Enter code to unlock door:", Effect.alert "Wrong code."])
            else if s.levelIndex + 1 < s.levels.length then
              some ({ s with levelIndex := s.levelIndex + 1, player := { x := 10, y := 10 },
                             timeLeft := 30 }, [])
            else
              some (s, [Effect.alert "You finished all levels! 🎉"])
          else
            some ({ s with player := newP }, [])

/-! ## Answering a question -/

/-- The loop of `submitAnswer` that sets `collected` on the first power-up whose `id` is
that of the active question, then breaks. -/
def markCollected (ps : List PowerUp) (id : String) : List PowerUp :=
  match ps with
  | [] => []
  | p :: rest =>
    if p.id = id then { p with collected := true } :: rest
    else p :: markCollected rest id

/-- The comparison `correct` of `submitAnswer`. -/
def isCorrect (input answer : String) : Bool :=
  decide (toLowerCase (jsTrim input) = toLowerCase (jsTrim answer))

/-- The two calls `setActiveQuestion(null); setAnswerInput("")`. -/
def closePrompt (s : GameState) : GameState :=
  { s with activeQuestion := none, answerInput := "" }

/-- The two conditional updates of `submitAnswer` that apply the power-up: ten seconds
for `time`, one life for `life`. -/
def applyBonus (s : GameState) (aq : PowerUp) : GameState :=
  let s1 := if aq.type = "time" then { s with timeLeft := s.timeLeft + 10 } else s
  if aq.type = "life" then { s1 with lives := s1.lives + 1 } else s1

/-- The mutation of the current level by `submitAnswer`: mark the power-up collected,
then unlock the exit if no power-up is left. -/
def collect (lv : Level) (id : String) : Level :=
  let lv1 := { lv with powerups := markCollected lv.powerups id }
  if remaining lv1 = 0 then { lv1 with exit := { lv1.exit with locked := false } } else lv1

/-- The handler `submitAnswer`. -/
def submitAnswer (s : GameState) : Option (GameState × List Effect) :=
  match s.activeQuestion with
  | none => some (s, [])
  | some aq =>
    if isCorrect s.answerInput aq.answer then
      match level s with
      | none => none
      | some lv =>
        some (closePrompt (setLevel (applyBonus s aq) (collect lv aq.id)),
          [Effect.alert "Correct! Power-up applied."])
    else
      some (closePrompt s, [Effect.alert "Wrong answer."])

/-! ## Timers -/

/-- One firing of the one-second interval; the interval exists only while the game is
not over and no question is open. -/
def tickCountdown (s : GameState) : GameState :=
  if s.gameOver || s.activeQuestion.isSome then s
  else if s.timeLeft ≤ 1 then { onDeath s with timeLeft := 30 }
  else { s with timeLeft := s.timeLeft - 1 }

/-- The body of the loop over `level.moving`. -/
def stepMoving (m : Moving) : Moving :=
  let x := m.x + m.dx
  { m with x := x, dx := if x ≤ 0 ∨ x + m.w ≥ 300 then m.dx * -1 else m.dx }

/-- One firing of the 50 ms interval of the moving obstacles. -/
def tickMoving (s : GameState) : Option GameState :=
  match level s with
  | none => none
  | some lv => some (setLevel s { lv with moving := lv.moving.map stepMoving })

/-! ## Events -/

/-- Whatever the browser can deliver to the component. -/
inductive Event where
  | key (e : KeyEvent) (reply : Option String)
  | countdown
  | movingTick
  | typeAnswer (text : String)
  | submit
  | cancel
  | death
deriving DecidableEq

/-- The state after one event.  The answer field and the Cancel button are rendered
only while a question is open. -/
def step (s : GameState) (ev : Event) : Option GameState :=
  match ev with
  | Event.key e reply => (handleKey s e reply).map Prod.fst
  | Event.countdown => some (tickCountdown s)
  | Event.movingTick => tickMoving s
  | Event.typeAnswer text =>
    some (if s.activeQuestion.isSome then { s with answerInput := text } else s)
  | Event.submit => (submitAnswer s).map Prod.fst
  | Event.cancel => some (if s.activeQuestion.isSome then closePrompt s else s)
  | Event.death => some (onDeath s)

/-- The states the game can be in, for exit positions `e1` and `e2`. -/
inductive Reachable (e1 e2 : Pos) : GameState → Prop where
  | init : Reachable e1 e2 (initialState e1 e2)
  | next (s t : GameState) (ev : Event) :
      Reachable e1 e2 s → step s ev = some t → Reachable e1 e2 t

/-- A key that moves the player: an arrow key or one of W, A, S, D, in either case. -/
def isDirectional (e : KeyEvent) : Bool :=
  let k := toLowerCase e.key
  decide (k = "arrowup" ∨ k = "w" ∨ k = "arrowdown" ∨ k = "s" ∨
    k = "arrowleft" ∨ k = "a" ∨ k = "arrowright" ∨ k = "d")

/-- The 32 by 32 box `handleKey` tests the exit with. -/
def exitBox (ex : Exit) : Rect := { x := ex.x, y := ex.y, w := 32, h := 32 }

/-- The normalisation in the order the specification words it: lower-case, then trim. -/
def specNormalize (s : String) : String := jsTrim (toLowerCase s)

/-- The state after a sequence of events, `none` once a handler has thrown. -/
def run (s : GameState) (evs : List Event) : Option GameState :=
  match evs with
  | [] => some s
  | ev :: rest =>
    match step s ev with
    | none => none
    | some t => run t rest

/-- A press of `key` that is not an auto-repeat and finds no `prompt` reply. -/
def press (key : String) : Event := Event.key { key := key, isRepeat := false } none

/-- Level 1 untouched, the exit at (40, 40), the player one step below the spawn. -/
def besideExitState : GameState :=
  { initialState { x := 40, y := 40 } { x := 100, y := 100 } with player := { x := 10, y := 30 } }

/-- Level 1 untouched, the exit drawn at (200, 80), on top of the enemy, and the player
at (170, 70), one step to the left of both. -/
def exitOverEnemyState : GameState :=
  { initialState { x := 200, y := 80 } { x := 100, y := 100 } with player := { x := 170, y := 70 } }

/-- The first power-up of level 1 as the template has it. -/
def l1p1 : PowerUp :=
  { id := "l1p1", type := "time", x := 40, y := 220, w := 26, h := 26,
    question := "What is 2 + 3 in JavaScript?", answer := "5", collected := false }

/-- The second power-up of level 1 as the template has it. -/
def l1p2 : PowerUp :=
  { id := "l1p2", type := "life", x := 220, y := 30, w := 26, h := 26,
    question := "Which keyword declares a variable in JS?", answer := "let",
    collected := false }

/-- Level 1 as the template lays it out, with the exit at `e`, the two `collected`
flags `c1` and `c2`, and the lock flag `locked`. -/
def level1 (e : Pos) (c1 c2 locked : Bool) : Level :=
  { exit := { x := e.x, y := e.y, locked := locked, code := "unlockDoor()" }
    obstacles := [ { x := 90, y := 100, w := 60, h := 18 },
                   { x := 160, y := 200, w := 18, h := 60 } ]
    enemies := [ { x := 200, y := 80, w := 28, h := 28 } ]
    moving := []
    powerups := [ { l1p1 with collected := c1 }, { l1p2 with collected := c2 } ] }

/-- Open the prompt of `pu`, type `text`, press Submit. -/
def answerPrompt (s : GameState) (pu : PowerUp) (text : String) : Option GameState :=
  (submitAnswer { s with activeQuestion := some pu, answerInput := text }).map Prod.fst

/-- The start state with the prompt of `l1p1` open and `text` typed in. -/
def promptState (text : String) : GameState :=
  { initialState { x := 100, y := 100 } { x := 100, y := 100 } with
    activeQuestion := some l1p1, answerInput := text }

/-- Level 1 with `l1p1` already collected, the exit still locked, and the prompt of
`l1p2` open with "LET" typed in. -/
def lastPromptState : GameState :=
  { initialState { x := 100, y := 100 } { x := 100, y := 100 } with
    levels := [level1 { x := 100, y := 100 } true false true]
    activeQuestion := some l1p2
    answerInput := "LET" }

/-- The start state with one life and one second left. -/
def lastSecondState : GameState :=
  { initialState { x := 100, y := 100 } { x := 100, y := 100 } with lives := 1, timeLeft := 1 }

/-- The ways one event can change the current level `lv` of `s` into `lv'`: the
moving obstacles step; a right unlock code is entered at the locked exit with no
power-up left; a correct answer is submitted. -/
def LevelChange (s : GameState) (ev : Event) (lv lv' : Level) : Prop :=
  (ev = Event.movingTick ∧ lv' = { lv with moving := lv.moving.map stepMoving }) ∨
  (∃ e, ev = Event.key e (some lv.exit.code) ∧ s.activeQuestion = none ∧
    lv.exit.locked = true ∧ remaining lv = 0 ∧
    lv' = { lv with exit := { lv.exit with locked := false } }) ∨
  (∃ aq, ev = Event.submit ∧ s.activeQuestion = some aq ∧
    isCorrect s.answerInput aq.answer = true ∧ lv' = collect lv aq.id)

/-- Level 1 finished (both power-ups collected, the exit unlocked at (40, 40)), level 2
untouched, the player one step below the spawn. -/
def unlockedState : GameState :=
  { initialState { x := 40, y := 40 } { x := 100, y := 100 } with
    levels := (LEVELS { x := 40, y := 40 } { x := 100, y := 100 }).set 0
      (level1 { x := 40, y := 40 } true true false)
    player := { x := 10, y := 30 } }

/-- The state `unlockedState` after the player has gone through the exit of level 1. -/
def advancedState : GameState :=
  { unlockedState with levelIndex := 1, player := { x := 10, y := 10 }, timeLeft := 30 }

/-- A play of level 1 with the exit at (100, 100): along the top wall to `l1p2`, answer
"let"; back to the spawn, down the left wall to `l1p1`, answer "5". -/
def playLevel1 : List Event :=
  List.replicate 10 (press "d") ++ [Event.typeAnswer "let", Event.submit] ++
  List.replicate 9 (press "a") ++ List.replicate 10 (press "s") ++ [press "d"] ++
  [Event.typeAnswer "5", Event.submit]

/-- The state at the end of `playLevel1`: both power-ups of level 1 collected, its exit
unlocked, four lives and forty seconds. -/
def finishedState : GameState :=
  { levels := (LEVELS { x := 100, y := 100 } { x := 100, y := 100 }).set 0
      (level1 { x := 100, y := 100 } true true false)
    levelIndex := 0
    player := { x := 10, y := 210 }
    lives := 4
    timeLeft := 40
    gameOver := false
    activeQuestion := none
    answerInput := "" }

/-- From `finishedState` through the exit of level 1: up to (10, 130), then right into
the exit at (100, 100) from below the obstacle. -/
def playExit1 : List Event :=
  List.replicate 4 (press "w") ++ List.replicate 4 (press "d")

/-- In level 2, from the spawn to the power-up `l2p2`: down the left wall to (10, 170),
then right twice; the second press opens the prompt. -/
def playPrompt2 : List Event :=
  List.replicate 8 (press "s") ++ List.replicate 2 (press "d")

/-- Level 2 with no moving-obstacle tick yet (the obstacle at x = 150 with dx = 2), the
player at (30, 170) and the prompt of `l2p2` open. -/
def level2PromptState : GameState :=
  { levels := (LEVELS { x := 100, y := 100 } { x := 100, y := 100 }).set 0
      (level1 { x := 100, y := 100 } true true false)
    levelIndex := 1
    player := { x := 30, y := 170 }
    lives := 4
    timeLeft := 30
    gameOver := false
    activeQuestion := some
      { id := "l2p2", type := "life", x := 60, y := 180, w := 26, h := 26,
        question := "What is 1 + 1?", answer := "2", collected := false }
    answerInput := "" }

/-- Level 2 with no moving-obstacle tick yet, after the countdown has run out four
times and taken the four lives. -/
def level2GameOverState : GameState :=
  { levels := (LEVELS { x := 100, y := 100 } { x := 100, y := 100 }).set 0
      (level1 { x := 100, y := 100 } true true false)
    levelIndex := 1
    player := { x := 10, y := 10 }
    lives := 0
    timeLeft := 30
    gameOver := true
    activeQuestion := none
    answerInput := "" }

/-- The moving obstacle of level 2 as the template has it. -/
def movingObstacle2 : Moving := { x := 150, y := 100, w := 40, h := 16, dx := 2 }

/-- What every tick keeps true of a moving obstacle that started as `movingObstacle2`:
its width is 40, its x is an even number between 0 and 260, its dx is 2 or -2, and
at either end of the track it already points back into the room. -/
def MovingInv (m : Moving) : Prop :=
  m.w = 40 ∧ 0 ≤ m.x ∧ m.x ≤ 260 ∧ m.x % 2 = 0 ∧ (m.dx = 2 ∨ m.dx = -2) ∧
  (m.x = 260 → m.dx = -2) ∧ (m.x = 0 → m.dx = 2)

/-- The non-negative number with significand `m` and binary exponent `e`.  Every
double in [0, 1) is of this form with `m < 2 ^ 53` (and `e` at least -1074). -/
def doubleOf (m : Nat) (e : Int) : ℚ := (m : ℚ) * (2 : ℚ) ^ e

/-- Round to the nearest integer, a tie going to the even neighbour. -/
def roundHalfEven (q : ℚ) : Int :=
  let f := ⌊q⌋
  if q - f < 1 / 2 then f
  else if 1 / 2 < q - f then f + 1
  else if f % 2 = 0 then f else f + 1

/-- The gap between neighbouring doubles at `q`: 2 to the power of the binary exponent
of `q`, not below -1022 (the least normal exponent), minus 52. -/
def ulp (q : ℚ) : ℚ := (2 : ℚ) ^ (max (Int.log 2 q) (-1022) - 52)

/-- The double that a floating-point operation returns when its exact result is the
non-negative number `q`: the multiple of `ulp q` nearest to `q`, ties to even. -/
def roundDouble (q : ℚ) : ℚ := roundHalfEven (q / ulp q) * ulp q

/-- The helper `randomExit`; `r1` and `r2` are the two results of `Math.random()`.  The
product `Math.random() * (max - margin)` is rounded to a double before `Math.floor`;
the subtraction and the addition are exact on these integers. -/
def randomExit (r1 r2 : ℚ) : Pos :=
  let margin : Int := 40
  let max : Int := 300 - margin
  { x := ⌊roundDouble (r1 * ((max - margin : Int) : ℚ))⌋ + margin
    y := ⌊roundDouble (r2 * ((max - margin : Int) : ℚ))⌋ + margin }

/-- Level 2 as the template lays it out, with the exit at `e`, both power-ups
uncollected, the exit locked, and the moving obstacle in the state `m`. -/
def level2 (e : Pos) (m : Moving) : Level :=
  { exit := { x := e.x, y := e.y, locked := true, code := "unlockDoor()" }
    obstacles := [ { x := 50, y := 50, w := 140, h := 18 } ]
    enemies := [ { x := 200, y := 150, w := 28, h := 28 } ]
    moving := [ m ]
    powerups :=
      [ { id := "l2p1", type := "time", x := 120, y := 200, w := 26, h := 26,
          question := "Which operator is strict equality in JS?", answer := "===",
          collected := false },
        { id := "l2p2", type := "life", x := 60, y := 180, w := 26, h := 26,
          question := "What is 1 + 1?", answer := "2", collected := false } ] }

/-- In level 2, from the spawn along the top wall to (190, 10), down to (190, 90), just
right of the moving obstacle; then one tick of the moving obstacles. -/
def playBesideMoving : List Event :=
  List.replicate 9 (press "d") ++ List.replicate 4 (press "s") ++ [Event.movingTick]

/-- The state at the end of `playLevel1`, `playExit1`, `playBesideMoving`: the player
stands at (190, 90) and the moving obstacle has moved to x = 152. -/
def underMovingState : GameState :=
  { levels := [level1 { x := 100, y := 100 } true true false,
      level2 { x := 100, y := 100 } { x := 152, y := 100, w := 40, h := 16, dx := 2 }]
    levelIndex := 1
    player := { x := 190, y := 90 }
    lives := 4
    timeLeft := 30
    gameOver := false
    activeQuestion := none
    answerInput := "" }

/-! ## Rejected moves -/

/-- C1. With no prompt open and the game not over, a directional key whose move
`handleKey` rejects leaves the player where it was.  The rejecting branches of
`handleKey` come after the enemy test, so they are taken when the clamped candidate
hits no enemy and it hits a static or moving obstacle, or finds an uncollected
power-up (the prompt opens), or hits the exit while the exit is locked (with power-ups
left, or with a right or wrong unlock code). -/
theorem handleKey_reject_keeps_player (s : GameState) (e : KeyEvent)
    (reply : Option String) (lv : Level)
    (hq : s.activeQuestion = none) (hg : s.gameOver = false)
    (_hd : isDirectional e = true) (hl : level s = some lv)
    (hen : lv.enemies.any (fun en => hit (candidate s.player e) en) = false)
    (hrej : lv.obstacles.any (fun ob => hit (candidate s.player e) ob) = true ∨
      lv.moving.any (fun mov => hit (candidate s.player e) mov.rect) = true ∨
      (detectPowerup lv (candidate s.player e)).isSome = true ∨
      (hit (candidate s.player e) (exitBox lv.exit) = true ∧ lv.exit.locked = true)) :
    ∃ t eff, handleKey s e reply = some (t, eff) ∧ t.player = s.player := by
  unfold handleKey
  by_cases hr : e.isRepeat = true
  · exact ⟨s, [], by simp [hr], rfl⟩
  · simp only [hr, hg, hq, hl, hen]
    simp only [Bool.false_eq_true, if_false, Option.isSome_none, Bool.or_self]
    by_cases hob : (lv.obstacles.any (fun ob => hit (candidate s.player e) ob) ||
        lv.moving.any (fun mov => hit (candidate s.player e) mov.rect)) = true
    · exact ⟨s, [], by simp only [hob, if_true], rfl⟩
    · simp only [hob, if_false, Bool.false_eq_true]
      cases hpu : detectPowerup lv (candidate s.player e) with
      | some pu => exact ⟨_, _, rfl, rfl⟩
      | none =>
        have hex : hit (candidate s.player e) (exitBox lv.exit) = true ∧ lv.exit.locked = true := by
          rcases hrej with h | h | h | h
          · simp [h] at hob
          · simp [h] at hob
          · simp [hpu] at h
          · exact h
        have hex1 : hit (candidate s.player e)
            { x := lv.exit.x, y := lv.exit.y, w := 32, h := 32 } = true := hex.1
        simp only [hex1, hex.2, if_true]
        by_cases hrem : remaining lv > 0
        · simp only [hrem, if_true]
          exact ⟨_, _, rfl, rfl⟩
        · by_cases hc : reply = some lv.exit.code
          · simp only [hrem, hc, if_true, if_false]
            exact ⟨_, _, rfl, rfl⟩
          · simp only [hrem, hc, if_false]
            exact ⟨_, _, rfl, rfl⟩

/-- Witness of C1: at (10, 30) with the exit at (40, 40), a step to the right would
enter the locked exit; the player stays at (10, 30). -/
theorem handleKey_reject_keeps_player_witness :
    ∃ t eff, handleKey besideExitState { key := "ArrowRight", isRepeat := false } none =
      some (t, eff) ∧ t.player = besideExitState.player :=
  handleKey_reject_keeps_player besideExitState { key := "ArrowRight", isRepeat := false } none
    { exit := { x := 40, y := 40, locked := true, code := "unlockDoor()" }
      obstacles := [ { x := 90, y := 100, w := 60, h := 18 },
                     { x := 160, y := 200, w := 18, h := 60 } ]
      enemies := [ { x := 200, y := 80, w := 28, h := 28 } ]
      moving := []
      powerups :=
        [ { id := "l1p1", type := "time", x := 40, y := 220, w := 26, h := 26,
            question := "What is 2 + 3 in JavaScript?", answer := "5", collected := false },
          { id := "l1p2", type := "life", x := 220, y := 30, w := 26, h := 26,
            question := "Which keyword declares a variable in JS?", answer := "let",
            collected := false } ] }
    rfl rfl (by decide) rfl (by decide) (Or.inr (Or.inr (Or.inr (by decide))))

/-! ## The locked exit of level 1 -/

lemma reachable_run {e1 e2 : Pos} (evs : List Event) :
    ∀ s t : GameState, Reachable e1 e2 s → run s evs = some t → Reachable e1 e2 t := by
  induction evs with
  | nil =>
    intro s t hs h
    simp only [run, Option.some.injEq] at h
    exact h ▸ hs
  | cons ev rest ih =>
    intro s t hs h
    simp only [run] at h
    cases hst : step s ev with
    | none => simp [hst] at h
    | some u =>
      simp only [hst] at h
      exact ih u t (Reachable.next s u ev hs hst) h

/-- C2, counterexample.  Level 1 with both power-ups uncollected and the exit at
(200, 80), a position `randomExit` can return: the state with the player at (170, 70)
is reached from the start by eight steps right and three down, and there the key `d`
has a candidate (190, 70) that overlaps the exit, yet `handleKey` shows no notice: the
candidate also overlaps the enemy, the player dies and is sent back to (10, 10). -/
theorem exit_over_enemy_no_notice :
    Reachable { x := 200, y := 80 } { x := 100, y := 100 } exitOverEnemyState ∧
    (level exitOverEnemyState).map remaining = some 2 ∧
    isDirectional { key := "d", isRepeat := false } = true ∧
    (level exitOverEnemyState).map (fun lv => hit (candidate exitOverEnemyState.player
      { key := "d", isRepeat := false }) (exitBox lv.exit)) = some true ∧
    handleKey exitOverEnemyState { key := "d", isRepeat := false } none =
      some ({ exitOverEnemyState with lives := 2, player := { x := 10, y := 10 } }, []) := by
  refine ⟨?_, by decide, by decide, by decide, by decide⟩
  exact reachable_run
    [press "d", press "d", press "d", press "d", press "d", press "d", press "d", press "d",
     press "s", press "s", press "s"] _ _ Reachable.init (by decide)

/-- C2, amended.  In level 1 with both power-ups uncollected and the exit locked, for
every exit position, with no prompt open and the game not over: a key press that is not
an auto-repeat, whose candidate overlaps the exit and overlaps no enemy, no obstacle and
no power-up, yields exactly the notice "Door is locked. Collect all power-ups first
(2 left).", opens no `prompt` for a code, and leaves the whole state as it was, the
exit locked and the player unmoved. -/
theorem handleKey_level1_locked_notice (e1 e2 : Pos) (s : GameState) (e : KeyEvent)
    (reply : Option String) (lv : Level)
    (hlv : (LEVELS e1 e2)[0]? = some lv) (hl : level s = some lv)
    (hq : s.activeQuestion = none) (hg : s.gameOver = false) (hr : e.isRepeat = false)
    (hen : lv.enemies.any (fun en => hit (candidate s.player e) en) = false)
    (hob : lv.obstacles.any (fun ob => hit (candidate s.player e) ob) = false)
    (hpu : lv.powerups.any (fun pu => hit (candidate s.player e) pu.rect) = false)
    (hex : hit (candidate s.player e) (exitBox lv.exit) = true) :
    handleKey s e reply =
      some (s, [Effect.alert "Door is locked. Collect all power-ups first (2 left)."]) := by
  simp only [LEVELS, LEVELS_TEMPLATE, List.getElem?_cons_zero, Option.some.injEq] at hlv
  subst hlv
  have hdet : detectPowerup
      { exit := { x := e1.x, y := e1.y, locked := true, code := "unlockDoor()" }
        obstacles := [ { x := 90, y := 100, w := 60, h := 18 },
                       { x := 160, y := 200, w := 18, h := 60 } ]
        enemies := [ { x := 200, y := 80, w := 28, h := 28 } ]
        moving := []
        powerups :=
          [ { id := "l1p1", type := "time", x := 40, y := 220, w := 26, h := 26,
              question := "What is 2 + 3 in JavaScript?", answer := "5", collected := false },
            { id := "l1p2", type := "life", x := 220, y := 30, w := 26, h := 26,
              question := "Which keyword declares a variable in JS?", answer := "let",
              collected := false } ] } (candidate s.player e) = none := by
    simp only [List.any_cons, List.any_nil, Bool.or_false, Bool.or_eq_false_iff] at hpu
    simp [detectPowerup, List.find?, hpu.1, hpu.2]
  unfold handleKey
  simp only [exitBox] at hex
  simp only [hr, hg, hq, hl, hen, hob, hdet, hex]
  simp [remaining]
  rfl

/-- Witness of C2 (amended): from (10, 30), a step to the right into the exit at (40, 40). -/
theorem handleKey_level1_locked_notice_witness :
    handleKey besideExitState { key := "d", isRepeat := false } (some "unlockDoor()") =
      some (besideExitState,
        [Effect.alert "Door is locked. Collect all power-ups first (2 left)."]) :=
  handleKey_level1_locked_notice { x := 40, y := 40 } { x := 100, y := 100 } besideExitState
    { key := "d", isRepeat := false } (some "unlockDoor()") _ rfl rfl rfl rfl rfl
    (by decide) (by decide) (by decide) (by decide)

/-! ## String normalisation -/

lemma toNat_ofNat_small (n : Nat) (h : n < 128) : (Char.ofNat n).toNat = n := by
  interval_cases n <;> rfl

lemma isJsWhiteSpace_lowerChar (c : Char) :
    isJsWhiteSpace (lowerChar c) = isJsWhiteSpace c := by
  unfold lowerChar
  split
  · rename_i h
    have h1 : (Char.ofNat (c.toNat + 32)).toNat = c.toNat + 32 :=
      toNat_ofNat_small _ (by omega)
    have h2 : isJsWhiteSpace c = false := by
      simp only [isJsWhiteSpace, Bool.or_eq_false_iff, beq_eq_false_iff_ne,
        Bool.and_eq_false_iff, decide_eq_false_iff_not, ne_eq]
      omega
    have h3 : isJsWhiteSpace (Char.ofNat (c.toNat + 32)) = false := by
      simp only [isJsWhiteSpace, h1, Bool.or_eq_false_iff, beq_eq_false_iff_ne,
        Bool.and_eq_false_iff, decide_eq_false_iff_not, ne_eq]
      omega
    rw [h2, h3]
  · rfl

lemma dropWhile_map_lowerChar (l : List Char) :
    (l.map lowerChar).dropWhile isJsWhiteSpace =
      (l.dropWhile isJsWhiteSpace).map lowerChar := by
  induction l with
  | nil => rfl
  | cons c l ih =>
    simp only [List.map_cons, List.dropWhile_cons, isJsWhiteSpace_lowerChar]
    split
    · exact ih
    · rfl

lemma trimChars_map_lowerChar (l : List Char) :
    trimChars (l.map lowerChar) = (trimChars l).map lowerChar := by
  simp only [trimChars, dropWhile_map_lowerChar, ← List.map_reverse]

/-- Trimming and lower-casing commute: the order of the code is the order of the
specification. -/
lemma toLowerCase_jsTrim (s : String) : toLowerCase (jsTrim s) = specNormalize s := by
  simp only [toLowerCase, jsTrim, specNormalize, trimChars_map_lowerChar]

lemma isCorrect_iff (input answer : String) :
    isCorrect input answer = true ↔ specNormalize input = specNormalize answer := by
  simp only [isCorrect, toLowerCase_jsTrim, decide_eq_true_eq]

/-! ## Answering -/

lemma level_setLevel (s : GameState) (lv lv' : Level) (hl : level s = some lv) :
    level (setLevel s lv') = some lv' := by
  simp only [level, setLevel] at hl ⊢
  obtain ⟨h, -⟩ := List.getElem?_eq_some.mp hl
  exact List.getElem?_set_self h

lemma level_applyBonus (s : GameState) (aq : PowerUp) : level (applyBonus s aq) = level s := by
  unfold applyBonus level
  split <;> split <;> rfl

lemma submitAnswer_of_correct (s : GameState) (aq : PowerUp) (lv : Level)
    (ha : s.activeQuestion = some aq) (hl : level s = some lv)
    (hc : isCorrect s.answerInput aq.answer = true) :
    submitAnswer s = some (closePrompt (setLevel (applyBonus s aq) (collect lv aq.id)),
      [Effect.alert "Correct! Power-up applied."]) := by
  unfold submitAnswer
  simp only [ha, hc, hl, if_true]

lemma submitAnswer_of_wrong (s : GameState) (aq : PowerUp)
    (ha : s.activeQuestion = some aq) (hc : isCorrect s.answerInput aq.answer = false) :
    submitAnswer s = some (closePrompt s, [Effect.alert "Wrong answer."]) := by
  unfold submitAnswer
  simp only [ha, hc, Bool.false_eq_true, if_false]

lemma markCollected_of_not_mem (ps : List PowerUp) (id : String)
    (h : id ∉ ps.map PowerUp.id) : markCollected ps id = ps := by
  induction ps with
  | nil => rfl
  | cons p rest ih =>
    simp only [List.map_cons, List.mem_cons, not_or] at h
    simp only [markCollected, if_neg (Ne.symm h.1), ih h.2]

lemma map_mark_of_not_mem (ps : List PowerUp) (id : String)
    (h : id ∉ ps.map PowerUp.id) :
    ps.map (fun p => if p.id = id then { p with collected := true } else p) = ps := by
  induction ps with
  | nil => rfl
  | cons p rest ih =>
    simp only [List.map_cons, List.mem_cons, not_or] at h
    simp only [List.map_cons, if_neg (Ne.symm h.1), ih h.2]

/-- With distinct ids, the loop of `submitAnswer` sets the flag of the power-up named
`id` and of no other. -/
lemma markCollected_eq_map (ps : List PowerUp) (id : String)
    (h : (ps.map PowerUp.id).Nodup) :
    markCollected ps id =
      ps.map (fun p => if p.id = id then { p with collected := true } else p) := by
  induction ps with
  | nil => rfl
  | cons p rest ih =>
    simp only [List.map_cons, List.nodup_cons] at h
    by_cases hp : p.id = id
    · have hr : id ∉ rest.map PowerUp.id := hp ▸ h.1
      simp only [markCollected, List.map_cons, if_pos hp, map_mark_of_not_mem rest id hr]
    · simp only [markCollected, List.map_cons, if_neg hp, ih h.2]

lemma powerups_collect (lv : Level) (id : String) :
    (collect lv id).powerups = markCollected lv.powerups id := by
  unfold collect
  dsimp only
  split <;> rfl

lemma timeLeft_applyBonus (s : GameState) (aq : PowerUp) :
    (applyBonus s aq).timeLeft = s.timeLeft + (if aq.type = "time" then 10 else 0) := by
  unfold applyBonus
  split <;> split <;> simp

lemma lives_applyBonus (s : GameState) (aq : PowerUp) :
    (applyBonus s aq).lives = s.lives + (if aq.type = "life" then 1 else 0) := by
  unfold applyBonus
  split <;> split <;> simp

/-- C3. With a question open and the current level defined, `submitAnswer` accepts the
input exactly when lower-casing and trimming it gives the same string as lower-casing
and trimming the expected answer: then it shows "Correct! Power-up applied.", adds 10
to `timeLeft` for a `time` power-up and 1 to `lives` for a `life` power-up, and closes
the prompt; otherwise it shows "Wrong answer.".  For `l1p1` (type `time`, answer "5")
and every input that normalises to "5": `timeLeft` grows by exactly 10, `lives` is
unchanged, the prompt closes, and in the current level (its ids being distinct, as in
`LEVELS`) the power-up `l1p1`, and no other, has `collected` set. -/
theorem submitAnswer_correct_answer (s : GameState) (aq : PowerUp) (lv : Level)
    (ha : s.activeQuestion = some aq) (hl : level s = some lv) :
    ((specNormalize s.answerInput = specNormalize aq.answer →
        ∃ t, submitAnswer s = some (t, [Effect.alert "Correct! Power-up applied."]) ∧
          t.timeLeft = s.timeLeft + (if aq.type = "time" then 10 else 0) ∧
          t.lives = s.lives + (if aq.type = "life" then 1 else 0) ∧
          t.activeQuestion = none ∧ t.answerInput = "") ∧
      (specNormalize s.answerInput ≠ specNormalize aq.answer →
        submitAnswer s = some (closePrompt s, [Effect.alert "Wrong answer."]))) ∧
    (aq.id = "l1p1" → aq.type = "time" → aq.answer = "5" →
      (lv.powerups.map PowerUp.id).Nodup → specNormalize s.answerInput = "5" →
        ∃ t lv', submitAnswer s = some (t, [Effect.alert "Correct! Power-up applied."]) ∧
          t.timeLeft = s.timeLeft + 10 ∧ t.lives = s.lives ∧
          t.activeQuestion = none ∧ t.answerInput = "" ∧ level t = some lv' ∧
          lv'.powerups = lv.powerups.map
            (fun p => if p.id = "l1p1" then { p with collected := true } else p)) := by
  have hgen : specNormalize s.answerInput = specNormalize aq.answer →
      submitAnswer s = some (closePrompt (setLevel (applyBonus s aq) (collect lv aq.id)),
        [Effect.alert "Correct! Power-up applied."]) := fun h =>
    submitAnswer_of_correct s aq lv ha hl ((isCorrect_iff _ _).mpr h)
  refine ⟨⟨fun h => ⟨_, hgen h, ?_, ?_, rfl, rfl⟩, fun h => ?_⟩, ?_⟩
  · exact timeLeft_applyBonus s aq
  · exact lives_applyBonus s aq
  · apply submitAnswer_of_wrong s aq ha
    cases hc : isCorrect s.answerInput aq.answer with
    | false => rfl
    | true => exact absurd ((isCorrect_iff _ _).mp hc) h
  · intro hid hty han hnd h5
    have hn : specNormalize s.answerInput = specNormalize aq.answer := by
      rw [h5, han]; decide
    refine ⟨_, collect lv aq.id, hgen hn, ?_, ?_, rfl, rfl, ?_, ?_⟩
    · show (applyBonus s aq).timeLeft = _
      rw [timeLeft_applyBonus, hty]; rfl
    · show (applyBonus s aq).lives = _
      rw [lives_applyBonus, hty]
      simp
    · have hb : level (applyBonus s aq) = some lv := by rw [level_applyBonus, hl]
      exact level_setLevel _ lv _ hb
    · rw [← hid, ← markCollected_eq_map lv.powerups aq.id hnd]
      exact powerups_collect lv aq.id

/-- Witness of C3: the prompt of `l1p1` with " 5" followed by a tab typed in. -/
theorem submitAnswer_correct_answer_witness :
    ∃ t lv', submitAnswer (promptState " 5\t") =
        some (t, [Effect.alert "Correct! Power-up applied."]) ∧
      t.timeLeft = 30 + 10 ∧ t.lives = 3 ∧ t.activeQuestion = none ∧ t.answerInput = "" ∧
      level t = some lv' ∧
      lv'.powerups = [{ l1p1 with collected := true }, l1p2] :=
  (submitAnswer_correct_answer (promptState " 5\t") l1p1 _ rfl rfl).2
    rfl rfl rfl (by decide) (by decide)

/-- C4. A wrong answer changes nothing but the prompt: when the input does not match
the expected answer of the active power-up, `submitAnswer` shows "Wrong answer." and
returns the state it was given with the prompt closed and the input buffer empty, so
lives, `timeLeft`, the player, the level index and the whole of `LEVELS` (every
`collected` flag, every `locked` flag) are as before.  The input "six" does not match
the answer of `l1p1`, and the empty input matches the answer of none of the four
power-ups. -/
theorem submitAnswer_wrong_answer (s : GameState) (aq : PowerUp)
    (ha : s.activeQuestion = some aq)
    (hw : specNormalize s.answerInput ≠ specNormalize aq.answer) :
    submitAnswer s =
      some ({ s with activeQuestion := none, answerInput := "" },
        [Effect.alert "Wrong answer."]) ∧
    specNormalize "six" ≠ specNormalize l1p1.answer ∧
    ∀ e1 e2 : Pos, ∀ lv ∈ LEVELS e1 e2, ∀ p ∈ lv.powerups,
      specNormalize "" ≠ specNormalize p.answer := by
  refine ⟨?_, by decide, ?_⟩
  · apply submitAnswer_of_wrong s aq ha
    cases hc : isCorrect s.answerInput aq.answer with
    | false => rfl
    | true => exact absurd ((isCorrect_iff _ _).mp hc) hw
  · intro e1 e2 lv hlv p hp
    simp only [LEVELS, LEVELS_TEMPLATE, List.mem_cons, List.mem_singleton,
      List.not_mem_nil, or_false] at hlv
    rcases hlv with rfl | rfl <;>
      simp only [List.mem_cons, List.mem_singleton, List.not_mem_nil, or_false] at hp <;>
      rcases hp with rfl | rfl <;> decide

/-- Witness of C4: "six" typed into the prompt of `l1p1`. -/
theorem submitAnswer_wrong_answer_witness :
    submitAnswer (promptState "six") =
      some ({ promptState "six" with activeQuestion := none, answerInput := "" },
        [Effect.alert "Wrong answer."]) :=
  (submitAnswer_wrong_answer (promptState "six") l1p1 rfl (by decide)).1

lemma remaining_collect_of_last (lv : Level) (aq : PowerUp)
    (hnd : (lv.powerups.map PowerUp.id).Nodup)
    (hlast : ∀ p ∈ lv.powerups, p.collected = false → p = aq) :
    ∀ p ∈ markCollected lv.powerups aq.id, p.collected = true := by
  rw [markCollected_eq_map lv.powerups aq.id hnd]
  intro p hp
  obtain ⟨q, hq, rfl⟩ := List.mem_map.mp hp
  by_cases hid : q.id = aq.id
  · simp only [hid, if_true]
  · simp only [hid, if_false]
    cases hqc : q.collected with
    | true => rfl
    | false => exact absurd (congrArg PowerUp.id (hlast q hq hqc)) hid

lemma remaining_eq_zero_iff (lv : Level) :
    remaining lv = 0 ↔ ∀ p ∈ lv.powerups, p.collected = true := by
  simp [remaining]

lemma collect_of_all (lv : Level) (id : String)
    (h : ∀ p ∈ markCollected lv.powerups id, p.collected = true) :
    (collect lv id).exit.locked = false := by
  unfold collect
  dsimp only
  rw [if_pos ((remaining_eq_zero_iff _).mpr h)]

lemma answerPrompt_of_correct (s : GameState) (pu : PowerUp) (text : String) (lv : Level)
    (hl : level s = some lv) (hc : isCorrect text pu.answer = true) :
    ∃ t, answerPrompt s pu text = some t ∧
      t.levels = s.levels.set s.levelIndex (collect lv pu.id) ∧
      t.levelIndex = s.levelIndex := by
  have h := submitAnswer_of_correct { s with activeQuestion := some pu, answerInput := text }
    pu lv rfl hl hc
  refine ⟨_, by rw [answerPrompt, h]; rfl, ?_, ?_⟩
  · show (applyBonus _ pu).levels.set (applyBonus _ pu).levelIndex _ = _
    unfold applyBonus
    split <;> split <;> rfl
  · show (applyBonus _ pu).levelIndex = _
    unfold applyBonus
    split <;> split <;> rfl

/-- Two answers in a row in level 1: the first leaves the exit locked, the second
unlocks it. -/
lemma level1_answers (s0 : GameState) (e1 : Pos) (rest : List Level)
    (first second : PowerUp) (a b : String) (c1 c2 : Bool)
    (hlv : s0.levels = level1 e1 c1 c2 true :: rest) (hidx : s0.levelIndex = 0)
    (ha : isCorrect a first.answer = true) (hb : isCorrect b second.answer = true)
    (h1 : ∃ d1 d2,
      collect (level1 e1 c1 c2 true) first.id = level1 e1 d1 d2 true ∧
      ∀ l, (collect (level1 e1 d1 d2 l) second.id).exit.locked = false) :
    ∃ t, answerPrompt s0 first a = some t ∧
      (level t).map (fun l => l.exit.locked) = some true ∧
      ∀ t', t'.levels = t.levels → t'.levelIndex = 0 →
        ∃ u, answerPrompt t' second b = some u ∧
          (level u).map (fun l => l.exit.locked) = some false := by
  obtain ⟨d1, d2, hc1, hc2⟩ := h1
  have hl0 : level s0 = some (level1 e1 c1 c2 true) := by
    simp only [level, hlv, hidx, List.getElem?_cons_zero]
  obtain ⟨t, ht, htl, hti⟩ := answerPrompt_of_correct s0 first a _ hl0 ha
  rw [hlv, hidx, hc1, List.set_cons_zero] at htl
  rw [hidx] at hti
  refine ⟨t, ht, ?_, ?_⟩
  · simp only [level, htl, hti, List.getElem?_cons_zero, Option.map_some']
    rfl
  · intro t' ht' hidx'
    have hl1 : level t' = some (level1 e1 d1 d2 true) := by
      simp only [level, ht', htl, hidx', List.getElem?_cons_zero]
    obtain ⟨u, hu, hul, hui⟩ := answerPrompt_of_correct t' second b _ hl1 hb
    rw [ht', htl, hidx', List.set_cons_zero] at hul
    rw [hidx'] at hui
    refine ⟨u, hu, ?_⟩
    simp only [level, hul, hui, List.getElem?_cons_zero, Option.map_some', hc2]

/-- C5. When `submitAnswer` accepts a correct answer for the one power-up of the
current level that is still uncollected (ids within a level being distinct, as in
`LEVELS`), then after that same call every power-up of the level is collected and the
exit is unlocked; the only dialog is the alert "Correct! Power-up applied.", no
`prompt` for a code.  In level 1, for every pair of exit positions, answering `l1p1`
with "5" and then `l1p2` with "let" leaves the exit locked after the first answer and
unlocked after the second, and so does the opposite order. -/
theorem submitAnswer_last_powerup_unlocks (s : GameState) (aq : PowerUp) (lv : Level)
    (ha : s.activeQuestion = some aq) (hl : level s = some lv) :
    (isCorrect s.answerInput aq.answer = true →
      (lv.powerups.map PowerUp.id).Nodup → aq ∈ lv.powerups → aq.collected = false →
      (∀ p ∈ lv.powerups, p.collected = false → p = aq) →
        ∃ t lv', submitAnswer s = some (t, [Effect.alert "Correct! Power-up applied."]) ∧
          level t = some lv' ∧ lv'.exit.locked = false ∧
          ∀ p ∈ lv'.powerups, p.collected = true) ∧
    (∀ (e1 e2 : Pos) (s0 : GameState), s0.levels = LEVELS e1 e2 → s0.levelIndex = 0 →
      (∃ t, answerPrompt s0 l1p1 "5" = some t ∧
        (level t).map (fun l => l.exit.locked) = some true ∧
        ∀ t', t'.levels = t.levels → t'.levelIndex = 0 →
          ∃ u, answerPrompt t' l1p2 "let" = some u ∧
            (level u).map (fun l => l.exit.locked) = some false) ∧
      (∃ t, answerPrompt s0 l1p2 "let" = some t ∧
        (level t).map (fun l => l.exit.locked) = some true ∧
        ∀ t', t'.levels = t.levels → t'.levelIndex = 0 →
          ∃ u, answerPrompt t' l1p1 "5" = some u ∧
            (level u).map (fun l => l.exit.locked) = some false)) := by
  constructor
  · intro hc hnd _ _ hlast
    have hall := remaining_collect_of_last lv aq hnd hlast
    refine ⟨_, collect lv aq.id, submitAnswer_of_correct s aq lv ha hl hc, ?_,
      collect_of_all lv aq.id hall, ?_⟩
    · have hb : level (applyBonus s aq) = some lv := by rw [level_applyBonus, hl]
      exact level_setLevel _ lv _ hb
    · rw [powerups_collect]
      exact hall
  · intro e1 e2 s0 hlv hidx
    have hL : ∃ rest, LEVELS e1 e2 = level1 e1 false false true :: rest := ⟨_, rfl⟩
    obtain ⟨rest, hL⟩ := hL
    rw [hL] at hlv
    exact ⟨level1_answers s0 e1 rest l1p1 l1p2 "5" "let" false false hlv hidx
        (by decide) (by decide)
        ⟨true, false,
          by simp [level1, l1p1, l1p2, collect, markCollected, remaining],
          by intro l; simp [level1, l1p1, l1p2, collect, markCollected, remaining]⟩,
      level1_answers s0 e1 rest l1p2 l1p1 "let" "5" false false hlv hidx
        (by decide) (by decide)
        ⟨false, true,
          by simp [level1, l1p1, l1p2, collect, markCollected, remaining],
          by intro l; simp [level1, l1p1, l1p2, collect, markCollected, remaining]⟩⟩

/-- Witness of C5: `l1p1` is collected, "LET" answers `l1p2`, and the exit opens. -/
theorem submitAnswer_last_powerup_unlocks_witness :
    ∃ t lv', submitAnswer lastPromptState =
        some (t, [Effect.alert "Correct! Power-up applied."]) ∧
      level t = some lv' ∧ lv'.exit.locked = false ∧
      ∀ p ∈ lv'.powerups, p.collected = true :=
  (submitAnswer_last_powerup_unlocks lastPromptState l1p2
    (level1 { x := 100, y := 100 } true false true) rfl rfl).1
    (by decide) (by decide) (by decide) rfl (by decide)

/-! ## Timers -/

lemma handleKey_gameOver (s : GameState) (e : KeyEvent) (reply : Option String)
    (hg : s.gameOver = true) : handleKey s e reply = some (s, []) := by
  unfold handleKey
  simp only [hg, Bool.true_or, if_true, ite_self]

lemma handleKey_prompt (s : GameState) (e : KeyEvent) (reply : Option String)
    (hq : s.activeQuestion.isSome = true) : handleKey s e reply = some (s, []) := by
  unfold handleKey
  simp only [hq, Bool.or_true, if_true, ite_self]

lemma tickCountdown_paused (s : GameState)
    (h : s.gameOver = true ∨ s.activeQuestion.isSome = true) : tickCountdown s = s := by
  unfold tickCountdown
  rcases h with h | h <;> simp [h]

/-- C6. With no prompt open, the game not over, one life and one second left, the
countdown tick ends the game: `lives` is 0 and `gameOver` is true.  From the state so
reached every key event and any number of further countdown ticks leave the state as
it is. -/
theorem tickCountdown_last_life (s : GameState)
    (hq : s.activeQuestion = none) (hg : s.gameOver = false)
    (hlives : s.lives = 1) (ht : s.timeLeft = 1) :
    (tickCountdown s).lives = 0 ∧ (tickCountdown s).gameOver = true ∧
    (∀ (e : KeyEvent) (reply : Option String),
      handleKey (tickCountdown s) e reply = some (tickCountdown s, [])) ∧
    ∀ n : Nat, tickCountdown^[n] (tickCountdown s) = tickCountdown s := by
  have hlv : (tickCountdown s).lives = 0 := by
    simp [tickCountdown, onDeath, hq, hg, hlives, ht]
  have hgo : (tickCountdown s).gameOver = true := by
    simp [tickCountdown, onDeath, hq, hg, hlives, ht]
  refine ⟨hlv, hgo, fun e reply => handleKey_gameOver _ e reply hgo, fun n => ?_⟩
  induction n with
  | zero => rfl
  | succ n ih =>
    rw [Function.iterate_succ_apply, tickCountdown_paused _ (Or.inl hgo), ih]

/-- Witness of C6: the start state with one life and one second left. -/
theorem tickCountdown_last_life_witness :
    (tickCountdown lastSecondState).lives = 0 ∧
    (tickCountdown lastSecondState).gameOver = true ∧
    (∀ (e : KeyEvent) (reply : Option String),
      handleKey (tickCountdown lastSecondState) e reply =
        some (tickCountdown lastSecondState, [])) ∧
    ∀ n : Nat, tickCountdown^[n] (tickCountdown lastSecondState) =
      tickCountdown lastSecondState :=
  tickCountdown_last_life lastSecondState rfl rfl rfl rfl

set_option maxRecDepth 100000 in
lemma reachable_finishedState :
    Reachable { x := 100, y := 100 } { x := 100, y := 100 } finishedState :=
  reachable_run playLevel1 _ _ Reachable.init (by decide)

set_option maxRecDepth 100000 in
lemma reachable_level2PromptState :
    Reachable { x := 100, y := 100 } { x := 100, y := 100 } level2PromptState :=
  reachable_run (playExit1 ++ playPrompt2) _ _ reachable_finishedState (by decide)

set_option maxRecDepth 100000 in
lemma reachable_level2GameOverState :
    Reachable { x := 100, y := 100 } { x := 100, y := 100 } level2GameOverState :=
  reachable_run (playExit1 ++ List.replicate 120 Event.countdown) _ _
    reachable_finishedState (by decide)

/-- C7, the code at the failing input.  The interval of the moving obstacles has no
test of `gameOver` or `activeQuestion`.  In level 2, in a state the game reaches with
the prompt of `l2p2` open, and in a state it reaches with the game over, a countdown
tick leaves the state as it is, yet a moving-obstacle tick takes the obstacle from
x = 150 to x = 152. -/
theorem tickMoving_not_paused :
    Reachable { x := 100, y := 100 } { x := 100, y := 100 } level2PromptState ∧
    level2PromptState.activeQuestion.isSome = true ∧
    tickCountdown level2PromptState = level2PromptState ∧
    (level level2PromptState).map (fun lv => lv.moving) =
      some [{ x := 150, y := 100, w := 40, h := 16, dx := 2 }] ∧
    ((tickMoving level2PromptState).bind level).map (fun lv => lv.moving) =
      some [{ x := 152, y := 100, w := 40, h := 16, dx := 2 }] ∧
    Reachable { x := 100, y := 100 } { x := 100, y := 100 } level2GameOverState ∧
    level2GameOverState.gameOver = true ∧
    tickCountdown level2GameOverState = level2GameOverState ∧
    ((tickMoving level2GameOverState).bind level).map (fun lv => lv.moving) =
      some [{ x := 152, y := 100, w := 40, h := 16, dx := 2 }] :=
  ⟨reachable_level2PromptState, by decide, by decide, by decide, by decide,
    reachable_level2GameOverState, by decide, by decide, by decide⟩

/-! ## One event at a time -/

/-- The shapes of the state `handleKey` returns. -/
lemma handleKey_cases (s : GameState) (e : KeyEvent) (reply : Option String)
    (t : GameState) (eff : List Effect) (h : handleKey s e reply = some (t, eff)) :
    t = s ∨
    (s.activeQuestion = none ∧ s.gameOver = false ∧ ∃ lv, level s = some lv ∧
      ((lv.enemies.any (fun en => hit (candidate s.player e) en) = true ∧ t = onDeath s) ∨
       (∃ pu, detectPowerup lv (candidate s.player e) = some pu ∧
          t = { s with activeQuestion := some pu, answerInput := "" }) ∨
       (lv.exit.locked = true ∧ remaining lv = 0 ∧ reply = some lv.exit.code ∧
          t = setLevel s { lv with exit := { lv.exit with locked := false } }) ∨
       (lv.exit.locked = false ∧ s.levelIndex + 1 < s.levels.length ∧
          t = { s with levelIndex := s.levelIndex + 1, player := { x := 10, y := 10 },
                       timeLeft := 30 }) ∨
       (lv.enemies.any (fun en => hit (candidate s.player e) en) = false ∧
        lv.obstacles.any (fun ob => hit (candidate s.player e) ob) = false ∧
          t = { s with player := candidate s.player e }))) := by
  unfold handleKey at h
  by_cases hr : e.isRepeat = true
  · simp only [hr, if_true, Option.some.injEq, Prod.mk.injEq] at h
    exact Or.inl h.1.symm
  simp only [hr, if_false, Bool.false_eq_true] at h
  by_cases hgq : (s.gameOver || s.activeQuestion.isSome) = true
  · simp only [hgq, if_true, Option.some.injEq, Prod.mk.injEq] at h
    exact Or.inl h.1.symm
  simp only [hgq, if_false, Bool.false_eq_true] at h
  have hg : s.gameOver = false := by
    cases hx : s.gameOver with
    | false => rfl
    | true => simp [hx] at hgq
  have hq : s.activeQuestion = none := by
    cases hx : s.activeQuestion with
    | none => rfl
    | some a => simp [hx] at hgq
  cases hl : level s with
  | none => simp [hl] at h
  | some lv =>
    simp only [hl] at h
    by_cases hen : lv.enemies.any (fun en => hit (candidate s.player e) en) = true
    · simp only [hen, if_true, Option.some.injEq, Prod.mk.injEq] at h
      exact Or.inr ⟨hq, hg, lv, rfl, Or.inl ⟨hen, h.1.symm⟩⟩
    simp only [hen, if_false, Bool.false_eq_true] at h
    by_cases hob : (lv.obstacles.any (fun ob => hit (candidate s.player e) ob) ||
        lv.moving.any (fun mov => hit (candidate s.player e) mov.rect)) = true
    · simp only [hob, if_true, Option.some.injEq, Prod.mk.injEq] at h
      exact Or.inl h.1.symm
    simp only [hob, if_false, Bool.false_eq_true] at h
    cases hpu : detectPowerup lv (candidate s.player e) with
    | some pu =>
      simp only [hpu, Option.some.injEq, Prod.mk.injEq] at h
      exact Or.inr ⟨hq, hg, lv, rfl, Or.inr (Or.inl ⟨pu, hpu, h.1.symm⟩)⟩
    | none =>
      simp only [hpu] at h
      by_cases hex : hit (candidate s.player e)
          { x := lv.exit.x, y := lv.exit.y, w := 32, h := 32 } = true
      · simp only [hex, if_true] at h
        by_cases hlk : lv.exit.locked = true
        · simp only [hlk, if_true] at h
          by_cases hrem : remaining lv > 0
          · simp only [hrem, if_true, Option.some.injEq, Prod.mk.injEq] at h
            exact Or.inl h.1.symm
          simp only [hrem, if_false] at h
          by_cases hc : reply = some lv.exit.code
          · simp only [hc, if_true, Option.some.injEq, Prod.mk.injEq] at h
            exact Or.inr ⟨hq, hg, lv, rfl,
              Or.inr (Or.inr (Or.inl ⟨hlk, by omega, hc, h.1.symm⟩))⟩
          · simp only [hc, if_false, Option.some.injEq, Prod.mk.injEq] at h
            exact Or.inl h.1.symm
        · simp only [hlk, if_false, Bool.false_eq_true] at h
          by_cases hadv : s.levelIndex + 1 < s.levels.length
          · simp only [hadv, if_true, Option.some.injEq, Prod.mk.injEq] at h
            exact Or.inr ⟨hq, hg, lv, rfl,
              Or.inr (Or.inr (Or.inr (Or.inl ⟨by simpa using hlk, hadv, h.1.symm⟩)))⟩
          · simp only [hadv, if_false, Option.some.injEq, Prod.mk.injEq] at h
            exact Or.inl h.1.symm
      · simp only [hex, if_false, Bool.false_eq_true, Option.some.injEq,
          Prod.mk.injEq] at h
        refine Or.inr ⟨hq, hg, lv, rfl, Or.inr (Or.inr (Or.inr (Or.inr ⟨?_, ?_, h.1.symm⟩)))⟩
        · simpa using hen
        · cases hx : lv.obstacles.any (fun ob => hit (candidate s.player e) ob) with
          | false => rfl
          | true => simp [hx] at hob

lemma levels_applyBonus (s : GameState) (aq : PowerUp) :
    (applyBonus s aq).levels = s.levels := by
  unfold applyBonus
  split <;> split <;> rfl

lemma levelIndex_applyBonus (s : GameState) (aq : PowerUp) :
    (applyBonus s aq).levelIndex = s.levelIndex := by
  unfold applyBonus
  split <;> split <;> rfl

lemma levels_tickCountdown (s : GameState) : (tickCountdown s).levels = s.levels := by
  unfold tickCountdown
  split
  · rfl
  · split <;> rfl

/-- What one event does to `LEVELS`: nothing, or one change of the current level. -/
lemma step_levels (s t : GameState) (ev : Event) (h : step s ev = some t) :
    t.levels = s.levels ∨
    ∃ lv lv', level s = some lv ∧ t.levels = s.levels.set s.levelIndex lv' ∧
      LevelChange s ev lv lv' := by
  cases ev with
  | key e reply =>
    simp only [step, Option.map_eq_some', Prod.exists, exists_and_right, exists_eq_right] at h
    obtain ⟨eff, h⟩ := h
    rcases handleKey_cases s e reply t eff h with rfl | ⟨hq, -, lv, hl, hc⟩
    · exact Or.inl rfl
    · rcases hc with ⟨-, rfl⟩ | ⟨pu, -, rfl⟩ | ⟨hlk, hrem, hre, rfl⟩ | ⟨-, -, rfl⟩ | ⟨-, -, rfl⟩
      · exact Or.inl rfl
      · exact Or.inl rfl
      · exact Or.inr ⟨lv, _, hl, rfl, Or.inr (Or.inl ⟨e, by rw [hre], hq, hlk, hrem, rfl⟩)⟩
      · exact Or.inl rfl
      · exact Or.inl rfl
  | countdown =>
    simp only [step, Option.some.injEq] at h
    exact Or.inl (h ▸ levels_tickCountdown s)
  | movingTick =>
    simp only [step, tickMoving] at h
    cases hl : level s with
    | none => simp [hl] at h
    | some lv =>
      simp only [hl, Option.some.injEq] at h
      exact Or.inr ⟨lv, _, rfl, h ▸ rfl, Or.inl ⟨rfl, rfl⟩⟩
  | typeAnswer text =>
    simp only [step, Option.some.injEq] at h
    subst h
    left
    split <;> rfl
  | submit =>
    simp only [step, Option.map_eq_some', Prod.exists, exists_and_right, exists_eq_right] at h
    obtain ⟨eff, h⟩ := h
    cases ha : s.activeQuestion with
    | none =>
      simp only [submitAnswer, ha, Option.some.injEq, Prod.mk.injEq] at h
      exact Or.inl (h.1 ▸ rfl)
    | some aq =>
      cases hc : isCorrect s.answerInput aq.answer with
      | false =>
        rw [submitAnswer_of_wrong s aq ha hc] at h
        simp only [Option.some.injEq, Prod.mk.injEq] at h
        exact Or.inl (h.1 ▸ rfl)
      | true =>
        cases hl : level s with
        | none => simp [submitAnswer, ha, hc, hl] at h
        | some lv =>
          rw [submitAnswer_of_correct s aq lv ha hl hc] at h
          simp only [Option.some.injEq, Prod.mk.injEq] at h
          refine Or.inr ⟨lv, collect lv aq.id, rfl, ?_, Or.inr (Or.inr ⟨aq, rfl, ha, hc, rfl⟩)⟩
          rw [← h.1]
          show (applyBonus s aq).levels.set (applyBonus s aq).levelIndex _ = _
          rw [levels_applyBonus, levelIndex_applyBonus]
  | cancel =>
    simp only [step, Option.some.injEq] at h
    subst h
    left
    split <;> rfl
  | death =>
    simp only [step, Option.some.injEq] at h
    exact Or.inl (h ▸ rfl)

lemma getElem?_set_level (ls : List Level) (i j : Nat) (lv lv' a : Level)
    (hi : ls[i]? = some lv) (hj : ls[j]? = some a) :
    (ls.set i lv')[j]? = some (if i = j then lv' else a) := by
  by_cases hij : i = j
  · subst hij
    simp only [if_true]
    obtain ⟨h, -⟩ := List.getElem?_eq_some.mp hi
    exact List.getElem?_set_self h
  · simp only [hij, if_false, List.getElem?_set_ne hij, hj]

/-- What one event does to the level at index `i`. -/
lemma step_level_at (s t : GameState) (ev : Event) (h : step s ev = some t)
    (i : Nat) (a : Level) (ha : s.levels[i]? = some a) :
    t.levels[i]? = some a ∨
    ∃ lv', i = s.levelIndex ∧ t.levels[i]? = some lv' ∧ LevelChange s ev a lv' := by
  rcases step_levels s t ev h with h0 | ⟨lv, lv', hl, hset, hch⟩
  · exact Or.inl (h0 ▸ ha)
  · have hget := getElem?_set_level s.levels s.levelIndex i lv lv' a hl ha
    rw [← hset] at hget
    by_cases hij : s.levelIndex = i
    · simp only [hij, if_true] at hget
      have hlv : lv = a := by
        have : some lv = some a := by rw [← hl, ← ha, level, hij]
        exact Option.some.inj this
      exact Or.inr ⟨lv', hij.symm, hget, hlv ▸ hch⟩
    · simp only [hij, if_false] at hget
      exact Or.inl hget

/-! ## Collected power-ups -/

lemma markCollected_getElem? (ps : List PowerUp) (id : String) :
    ∀ (j : Nat) (p : PowerUp), ps[j]? = some p →
      (markCollected ps id)[j]? = some p ∨
      (markCollected ps id)[j]? = some { p with collected := true } := by
  induction ps with
  | nil => intro j p h; simp at h
  | cons q rest ih =>
    intro j p h
    by_cases hq : q.id = id
    · simp only [markCollected, if_pos hq]
      cases j with
      | zero =>
        simp only [List.getElem?_cons_zero, Option.some.injEq] at h
        subst h
        exact Or.inr (by simp only [List.getElem?_cons_zero])
      | succ j =>
        simp only [List.getElem?_cons_succ] at h ⊢
        exact Or.inl h
    · simp only [markCollected, if_neg hq]
      cases j with
      | zero =>
        simp only [List.getElem?_cons_zero] at h ⊢
        exact Or.inl h
      | succ j =>
        simp only [List.getElem?_cons_succ] at h ⊢
        exact ih j p h

lemma levelChange_powerups (s : GameState) (ev : Event) (lv lv' : Level)
    (h : LevelChange s ev lv lv') :
    lv'.powerups = lv.powerups ∨ ∃ id, lv'.powerups = markCollected lv.powerups id := by
  rcases h with ⟨-, rfl⟩ | ⟨e, -, -, -, -, rfl⟩ | ⟨aq, -, -, -, rfl⟩
  · exact Or.inl rfl
  · exact Or.inl rfl
  · exact Or.inr ⟨aq.id, powerups_collect lv aq.id⟩

lemma levelChange_collected (s : GameState) (ev : Event) (lv lv' : Level)
    (h : LevelChange s ev lv lv') (j : Nat) (p : PowerUp)
    (hp : lv.powerups[j]? = some p) (hc : p.collected = true) :
    ∃ p', lv'.powerups[j]? = some p' ∧ p'.id = p.id ∧ p'.collected = true := by
  rcases levelChange_powerups s ev lv lv' h with h0 | ⟨id, h1⟩
  · exact ⟨p, h0 ▸ hp, rfl, hc⟩
  · rcases markCollected_getElem? lv.powerups id j p hp with h2 | h2
    · exact ⟨p, h1 ▸ h2, rfl, hc⟩
    · exact ⟨{ p with collected := true }, h1 ▸ h2, rfl, rfl⟩

lemma detectPowerup_some (lv : Level) (pos : Pos) (pu : PowerUp)
    (h : detectPowerup lv pos = some pu) : pu ∈ lv.powerups ∧ pu.collected = false := by
  unfold detectPowerup at h
  have h1 := List.mem_of_find?_eq_some h
  have h2 := List.find?_some h
  simp only [Bool.and_eq_true, Bool.not_eq_true'] at h2
  exact ⟨h1, h2.1⟩

lemma level_tickCountdown (s : GameState) : level (tickCountdown s) = level s := by
  unfold tickCountdown level
  split
  · rfl
  · split <;> rfl

lemma activeQuestion_tickCountdown (s : GameState) :
    (tickCountdown s).activeQuestion = s.activeQuestion := by
  unfold tickCountdown
  split
  · rfl
  · split <;> rfl

/-- Where the active question of the state after an event comes from: it was already
open, and the power-ups of the current level are as they were; or a key press has just
opened it, for an uncollected power-up of the current level. -/
lemma step_activeQuestion (s t : GameState) (ev : Event) (h : step s ev = some t)
    (aq : PowerUp) (ht : t.activeQuestion = some aq) :
    (s.activeQuestion = some aq ∧
      ∀ lv, level s = some lv → ∃ lv', level t = some lv' ∧ lv'.powerups = lv.powerups) ∨
    (s.activeQuestion = none ∧ ∃ lv, level s = some lv ∧ level t = some lv ∧
      aq ∈ lv.powerups ∧ aq.collected = false) := by
  cases ev with
  | key e reply =>
    simp only [step, Option.map_eq_some', Prod.exists, exists_and_right, exists_eq_right] at h
    obtain ⟨eff, h⟩ := h
    rcases handleKey_cases s e reply t eff h with rfl | ⟨hq, -, lv, hl, hc⟩
    · exact Or.inl ⟨ht, fun lv hl => ⟨lv, hl, rfl⟩⟩
    · rcases hc with ⟨-, rfl⟩ | ⟨pu, hpu, rfl⟩ | ⟨-, -, -, rfl⟩ | ⟨-, -, rfl⟩ | ⟨-, -, rfl⟩
      · exact absurd (hq ▸ ht : (none : Option PowerUp) = some aq) (by simp)
      · simp only [Option.some.injEq] at ht
        subst ht
        exact Or.inr ⟨hq, lv, hl, hl, detectPowerup_some lv _ pu hpu⟩
      · exact absurd (hq ▸ ht : (none : Option PowerUp) = some aq) (by simp)
      · exact absurd (hq ▸ ht : (none : Option PowerUp) = some aq) (by simp)
      · exact absurd (hq ▸ ht : (none : Option PowerUp) = some aq) (by simp)
  | countdown =>
    simp only [step, Option.some.injEq] at h
    subst h
    rw [activeQuestion_tickCountdown] at ht
    exact Or.inl ⟨ht, fun lv hl => ⟨lv, by rw [level_tickCountdown, hl], rfl⟩⟩
  | movingTick =>
    simp only [step, tickMoving] at h
    cases hl : level s with
    | none => simp [hl] at h
    | some lv =>
      simp only [hl, Option.some.injEq] at h
      subst h
      refine Or.inl ⟨ht, fun lv0 hl0 => ⟨_, level_setLevel s lv _ hl, ?_⟩⟩
      exact Option.some.inj hl0 ▸ rfl
  | typeAnswer text =>
    simp only [step, Option.some.injEq] at h
    subst h
    refine Or.inl ⟨?_, fun lv hl => ⟨lv, ?_, rfl⟩⟩
    · split at ht <;> exact ht
    · split <;> exact hl
  | submit =>
    simp only [step, Option.map_eq_some', Prod.exists, exists_and_right, exists_eq_right] at h
    obtain ⟨eff, h⟩ := h
    cases ha : s.activeQuestion with
    | none =>
      simp only [submitAnswer, ha, Option.some.injEq, Prod.mk.injEq] at h
      rw [← h.1, ha] at ht
      simp at ht
    | some a =>
      cases hc : isCorrect s.answerInput a.answer with
      | false =>
        rw [submitAnswer_of_wrong s a ha hc] at h
        simp only [Option.some.injEq, Prod.mk.injEq] at h
        rw [← h.1] at ht
        simp [closePrompt] at ht
      | true =>
        cases hl : level s with
        | none => simp [submitAnswer, ha, hc, hl] at h
        | some lv =>
          rw [submitAnswer_of_correct s a lv ha hl hc] at h
          simp only [Option.some.injEq, Prod.mk.injEq] at h
          rw [← h.1] at ht
          simp [closePrompt] at ht
  | cancel =>
    simp only [step, Option.some.injEq] at h
    subst h
    by_cases hq : s.activeQuestion.isSome = true
    · simp [hq, closePrompt] at ht
    · simp only [hq, if_false, Bool.false_eq_true] at ht ⊢
      exact Or.inl ⟨ht, fun lv hl => ⟨lv, hl, rfl⟩⟩
  | death =>
    simp only [step, Option.some.injEq] at h
    subst h
    exact Or.inl ⟨ht, fun lv hl => ⟨lv, hl, rfl⟩⟩

/-- In every reachable state the open question, if any, belongs to an uncollected
power-up of the current level. -/
lemma reachable_activeQuestion (e1 e2 : Pos) (s : GameState) (hr : Reachable e1 e2 s)
    (aq : PowerUp) (ha : s.activeQuestion = some aq) :
    ∃ lv, level s = some lv ∧ aq ∈ lv.powerups ∧ aq.collected = false := by
  induction hr generalizing aq with
  | init => simp [initialState] at ha
  | next s t ev _ hst ih =>
    rcases step_activeQuestion s t ev hst aq ha with ⟨hs, hlv⟩ | ⟨-, lv, -, hlt, hm⟩
    · obtain ⟨lv, hl, hm, hu⟩ := ih aq hs
      obtain ⟨lv', hl', hp⟩ := hlv lv hl
      exact ⟨lv', hl', hp ▸ hm, hu⟩
    · exact ⟨lv, hlt, hm⟩

lemma markCollected_ids (ps : List PowerUp) (id : String) :
    (markCollected ps id).map PowerUp.id = ps.map PowerUp.id := by
  induction ps with
  | nil => rfl
  | cons p rest ih =>
    by_cases hp : p.id = id
    · simp only [markCollected, if_pos hp, List.map_cons]
    · simp only [markCollected, if_neg hp, List.map_cons, ih]

/-- In every reachable state the ids of the power-ups of a level are distinct. -/
lemma reachable_ids_nodup (e1 e2 : Pos) (s : GameState) (hr : Reachable e1 e2 s) :
    ∀ lv ∈ s.levels, (lv.powerups.map PowerUp.id).Nodup := by
  induction hr with
  | init =>
    intro lv hlv
    simp only [initialState, LEVELS, LEVELS_TEMPLATE, List.mem_cons, List.mem_singleton,
      List.not_mem_nil, or_false] at hlv
    rcases hlv with rfl | rfl <;> simp only [List.map_cons, List.map_nil] <;> decide
  | next s t ev _ hst ih =>
    intro lv hlv
    rcases step_levels s t ev hst with h0 | ⟨a, a', hl, hset, hch⟩
    · exact ih lv (h0 ▸ hlv)
    · rw [hset] at hlv
      rcases List.mem_or_eq_of_mem_set hlv with hm | rfl
      · exact ih lv hm
      · have ha : a ∈ s.levels := List.getElem?_mem hl
        rcases levelChange_powerups s ev a lv hch with h1 | ⟨id, h1⟩
        · rw [h1]; exact ih a ha
        · rw [h1, markCollected_ids]; exact ih a ha

/-- C8. Across every event (key press, countdown tick, moving-obstacle tick, typing,
submit, cancel, death) a power-up that is collected stays collected, in every level and
at every position of `powerups`.  `detectPowerup` returns only uncollected power-ups of
the level, so a key press opens a prompt only for an uncollected power-up of the
current level.  In every reachable state the open prompt belongs to an uncollected
power-up of the current level, and a correct submit sets the `collected` flag of the
power-up with that id: the bonus of a power-up is applied at most once. -/
theorem collected_is_permanent (s t : GameState) (ev : Event) (h : step s ev = some t) :
    (∀ (i j : Nat) (lv : Level) (p : PowerUp), s.levels[i]? = some lv →
      lv.powerups[j]? = some p → p.collected = true →
        ∃ lv' p', t.levels[i]? = some lv' ∧ lv'.powerups[j]? = some p' ∧
          p'.id = p.id ∧ p'.collected = true) ∧
    (∀ (lv : Level) (pos : Pos) (pu : PowerUp), detectPowerup lv pos = some pu →
      pu ∈ lv.powerups ∧ pu.collected = false) ∧
    (∀ aq, t.activeQuestion = some aq →
      s.activeQuestion = some aq ∨
      ∃ lv, level s = some lv ∧ aq ∈ lv.powerups ∧ aq.collected = false) ∧
    (∀ e1 e2, Reachable e1 e2 s → ∀ aq, s.activeQuestion = some aq →
      ∃ lv, level s = some lv ∧ aq ∈ lv.powerups ∧ aq.collected = false ∧
        (ev = Event.submit → isCorrect s.answerInput aq.answer = true →
          ∃ lv', level t = some lv' ∧
            ∀ p ∈ lv'.powerups, p.id = aq.id → p.collected = true)) := by
  refine ⟨?_, detectPowerup_some, ?_, ?_⟩
  · intro i j lv p hl hp hc
    rcases step_level_at s t ev h i lv hl with h0 | ⟨lv', -, hl', hch⟩
    · exact ⟨lv, p, h0, hp, rfl, hc⟩
    · obtain ⟨p', hp', hid, hc'⟩ := levelChange_collected s ev lv lv' hch j p hp hc
      exact ⟨lv', p', hl', hp', hid, hc'⟩
  · intro aq ht
    rcases step_activeQuestion s t ev h aq ht with ⟨hs, -⟩ | ⟨-, lv, hl, -, hm⟩
    · exact Or.inl hs
    · exact Or.inr ⟨lv, hl, hm⟩
  · intro e1 e2 hr aq ha
    obtain ⟨lv, hl, hm, hu⟩ := reachable_activeQuestion e1 e2 s hr aq ha
    refine ⟨lv, hl, hm, hu, ?_⟩
    intro hev hc
    subst hev
    simp only [step, submitAnswer_of_correct s aq lv ha hl hc, Option.map_some',
      Option.some.injEq] at h
    subst h
    have hb : level (applyBonus s aq) = some lv := by rw [level_applyBonus, hl]
    refine ⟨collect lv aq.id, level_setLevel _ lv _ hb, ?_⟩
    have hnd := reachable_ids_nodup e1 e2 s hr lv (List.getElem?_mem hl)
    rw [powerups_collect, markCollected_eq_map lv.powerups aq.id hnd]
    intro p hp hid
    obtain ⟨q, -, rfl⟩ := List.mem_map.mp hp
    by_cases hq : q.id = aq.id
    · simp only [hq, if_true]
    · simp only [hq, if_false] at hid

/-- Witness of C8: `l1p1` is collected when "LET" is submitted for `l1p2`; after the
submit it is still collected. -/
theorem collected_is_permanent_witness :
    ∃ lv' p', (closePrompt (setLevel (applyBonus lastPromptState l1p2)
        (collect (level1 { x := 100, y := 100 } true false true) "l1p2"))).levels[0]? =
          some lv' ∧
      lv'.powerups[0]? = some p' ∧ p'.id = "l1p1" ∧ p'.collected = true :=
  (collected_is_permanent lastPromptState
    (closePrompt (setLevel (applyBonus lastPromptState l1p2)
      (collect (level1 { x := 100, y := 100 } true false true) "l1p2")))
    Event.submit (by decide)).1 0 0 (level1 { x := 100, y := 100 } true false true)
    { l1p1 with collected := true } rfl rfl rfl

/-! ## The lock of the exit -/

lemma levelChange_locked (s : GameState) (ev : Event) (lv lv' : Level)
    (h : LevelChange s ev lv lv') (hu : lv.exit.locked = false) :
    lv'.exit.locked = false := by
  rcases h with ⟨-, rfl⟩ | ⟨e, -, -, -, -, rfl⟩ | ⟨aq, -, -, -, rfl⟩
  · exact hu
  · rfl
  · unfold collect
    dsimp only
    split
    · rfl
    · exact hu

/-- C9. Across every event (key press, with or without an unlock code typed in and
with or without a level advance; countdown tick; moving-obstacle tick; typing; submit;
cancel; death) an exit that is unlocked stays unlocked, in every level. -/
theorem exit_unlocked_is_permanent (s t : GameState) (ev : Event)
    (h : step s ev = some t) (i : Nat) (lv : Level)
    (hl : s.levels[i]? = some lv) (hu : lv.exit.locked = false) :
    ∃ lv', t.levels[i]? = some lv' ∧ lv'.exit.locked = false := by
  rcases step_level_at s t ev h i lv hl with h0 | ⟨lv', -, hl', hch⟩
  · exact ⟨lv, h0, hu⟩
  · exact ⟨lv', hl', levelChange_locked s ev lv lv' hch hu⟩

/-- Witness of C9: level 1 is unlocked and the key `d` takes the player through its exit
into level 2; the exit of level 1 is still unlocked. -/
theorem exit_unlocked_is_permanent_witness :
    ∃ lv', advancedState.levels[0]? = some lv' ∧ lv'.exit.locked = false :=
  exit_unlocked_is_permanent unlockedState advancedState (press "d") (by decide) 0 (level1 { x := 40, y := 40 } true true false) rfl rfl

lemma markCollected_all (ps : List PowerUp) (id : String)
    (h : ∀ p ∈ ps, p.collected = true) : ∀ p ∈ markCollected ps id, p.collected = true := by
  induction ps with
  | nil => intro p hp; simp [markCollected] at hp
  | cons q rest ih =>
    intro p hp
    by_cases hq : q.id = id
    · simp only [markCollected, if_pos hq, List.mem_cons] at hp
      rcases hp with rfl | hp
      · rfl
      · exact h p (List.mem_cons_of_mem q hp)
    · simp only [markCollected, if_neg hq, List.mem_cons] at hp
      rcases hp with rfl | hp
      · exact h p (List.mem_cons_self p rest)
      · exact ih (fun r hr => h r (List.mem_cons_of_mem q hr)) p hp

/-- A change of the current level keeps "unlocked implies all collected". -/
lemma levelChange_unlocked_collected (s : GameState) (ev : Event) (lv lv' : Level)
    (h : LevelChange s ev lv lv')
    (hinv : lv.exit.locked = false → ∀ p ∈ lv.powerups, p.collected = true) :
    lv'.exit.locked = false → ∀ p ∈ lv'.powerups, p.collected = true := by
  rcases h with ⟨-, rfl⟩ | ⟨e, -, -, -, hrem, rfl⟩ | ⟨aq, -, -, -, rfl⟩
  · exact hinv
  · intro _
    exact (remaining_eq_zero_iff lv).mp hrem
  · intro hu
    rw [powerups_collect]
    by_cases hrem : remaining { lv with powerups := markCollected lv.powerups aq.id } = 0
    · exact (remaining_eq_zero_iff _).mp hrem
    · have hlk : (collect lv aq.id).exit.locked = lv.exit.locked := by
        unfold collect
        dsimp only
        rw [if_neg hrem]
      exact markCollected_all lv.powerups aq.id (hinv (hlk ▸ hu))

/-- In every reachable state an unlocked exit has all the power-ups of its level
collected. -/
lemma reachable_unlocked_collected (e1 e2 : Pos) (s : GameState)
    (hr : Reachable e1 e2 s) :
    ∀ lv ∈ s.levels, lv.exit.locked = false → ∀ p ∈ lv.powerups, p.collected = true := by
  induction hr with
  | init =>
    intro lv hlv hu
    simp only [initialState, LEVELS, LEVELS_TEMPLATE, List.mem_cons, List.mem_singleton,
      List.not_mem_nil, or_false] at hlv
    rcases hlv with rfl | rfl <;> simp at hu
  | next s t ev _ hst ih =>
    intro lv hlv
    rcases step_levels s t ev hst with h0 | ⟨a, a', hl, hset, hch⟩
    · exact ih lv (h0 ▸ hlv)
    · rw [hset] at hlv
      rcases List.mem_or_eq_of_mem_set hlv with hm | rfl
      · exact ih lv hm
      · exact levelChange_unlocked_collected s ev a lv hch (ih a (List.getElem?_mem hl))

/-- If marking `id` leaves every power-up collected and `aq` was an uncollected member,
then `aq` was the one power-up still uncollected. -/
lemma filter_uncollected_of_mark (ps : List PowerUp) (id : String) (aq : PowerUp)
    (hall : ∀ p ∈ markCollected ps id, p.collected = true)
    (hmem : aq ∈ ps) (hunc : aq.collected = false) :
    ps.filter (fun p => !p.collected) = [aq] := by
  induction ps with
  | nil => simp at hmem
  | cons q rest ih =>
    by_cases hq : q.id = id
    · simp only [markCollected, if_pos hq, List.mem_cons, forall_eq_or_imp] at hall
      have hrest : ∀ p ∈ rest, p.collected = true := hall.2
      have haq : aq = q := by
        rcases List.mem_cons.mp hmem with h | h
        · exact h
        · exact absurd (hrest aq h) (by simp [hunc])
      subst haq
      have hf : rest.filter (fun p => !p.collected) = [] := by
        simp only [List.filter_eq_nil_iff, Bool.not_eq_true', Bool.not_eq_false]
        exact hrest
      simp only [List.filter_cons, hunc, Bool.not_false, if_true, hf]
    · simp only [markCollected, if_neg hq, List.mem_cons, forall_eq_or_imp] at hall
      have haq : aq ∈ rest := by
        rcases List.mem_cons.mp hmem with h | h
        · exact absurd hall.1 (by simp [← h, hunc])
        · exact h
      simp only [List.filter_cons, hall.1, Bool.not_true, Bool.false_eq_true, if_false]
      exact ih hall.2 haq

/-- C10. In every state reachable from the initial state, for every pair of exit
positions and in every level, an unlocked exit has every power-up of its level
collected.  An event takes an exit from locked to unlocked only in the current level
and only in one of two ways: a key press at the exit with the right unlock code typed
in while no power-up remains; or a submit with the correct answer to the one power-up
that was still uncollected. -/
theorem unlocked_only_after_all_collected (e1 e2 : Pos) (s : GameState)
    (hr : Reachable e1 e2 s) :
    (∀ lv ∈ s.levels, lv.exit.locked = false → ∀ p ∈ lv.powerups, p.collected = true) ∧
    (∀ (ev : Event) (t : GameState), step s ev = some t →
      ∀ (i : Nat) (lv lv' : Level), s.levels[i]? = some lv → t.levels[i]? = some lv' →
        lv.exit.locked = true → lv'.exit.locked = false →
          i = s.levelIndex ∧
          ((∃ e, ev = Event.key e (some lv.exit.code) ∧ remaining lv = 0) ∨
           (ev = Event.submit ∧ ∃ aq, s.activeQuestion = some aq ∧
              isCorrect s.answerInput aq.answer = true ∧
              lv.powerups.filter (fun p => !p.collected) = [aq]))) := by
  refine ⟨reachable_unlocked_collected e1 e2 s hr, ?_⟩
  intro ev t hst i lv lv' hl hl' hlk hu
  rcases step_level_at s t ev hst i lv hl with h0 | ⟨lv2, hi, hl2, hch⟩
  · rw [hl'] at h0
    rw [Option.some.inj h0, hlk] at hu
    exact absurd hu (by simp)
  · rw [hl'] at hl2
    have h2 : lv' = lv2 := Option.some.inj hl2
    subst h2
    refine ⟨hi, ?_⟩
    rcases hch with ⟨-, rfl⟩ | ⟨e, hev, -, -, hrem, -⟩ | ⟨aq, hev, ha, hc, rfl⟩
    · rw [show ({ lv with moving := lv.moving.map stepMoving } : Level).exit.locked =
        lv.exit.locked from rfl, hlk] at hu
      exact absurd hu (by simp)
    · exact Or.inl ⟨e, hev, hrem⟩
    · refine Or.inr ⟨hev, aq, ha, hc, ?_⟩
      obtain ⟨cur, hcur, hm, hunc⟩ := reachable_activeQuestion e1 e2 s hr aq ha
      have hcl : cur = lv := by
        have : some cur = some lv := by rw [← hcur, ← hl, level, hi]
        exact Option.some.inj this
      subst hcl
      have hall : ∀ p ∈ markCollected cur.powerups aq.id, p.collected = true := by
        by_cases hrem : remaining { cur with powerups := markCollected cur.powerups aq.id } = 0
        · exact (remaining_eq_zero_iff _).mp hrem
        · have hlk2 : (collect cur aq.id).exit.locked = cur.exit.locked := by
            unfold collect
            dsimp only
            rw [if_neg hrem]
          rw [hlk2, hlk] at hu
          exact absurd hu (by simp)
      exact filter_uncollected_of_mark cur.powerups aq.id aq hall hm hunc

/-- Witness of C10: after the play `playLevel1` the exit of level 1 is unlocked, and
both power-ups of level 1 are collected. -/
theorem unlocked_only_after_all_collected_witness :
    (level1 { x := 100, y := 100 } true true false).exit.locked = false ∧
    ∀ p ∈ (level1 { x := 100, y := 100 } true true false).powerups, p.collected = true :=
  ⟨rfl, (unlocked_only_after_all_collected { x := 100, y := 100 } { x := 100, y := 100 }
    finishedState reachable_finishedState).1
    (level1 { x := 100, y := 100 } true true false) (by decide) rfl⟩

/-! ## The moving obstacle -/

lemma stepMoving_inv (m : Moving) (h : MovingInv m) : MovingInv (stepMoving m) := by
  obtain ⟨hw, h0, h260, hev, hdx, hhi, hlo⟩ := h
  unfold MovingInv stepMoving
  dsimp only
  rcases hdx with hd | hd
  · have hne : m.x ≠ 260 := fun hx => by
      have := hhi hx
      omega
    by_cases hc : m.x + m.dx ≤ 0 ∨ m.x + m.dx + m.w ≥ 300
    · rw [if_pos hc]
      refine ⟨hw, by omega, by omega, by omega, Or.inr (by omega), fun _ => by omega,
        fun _ => by omega⟩
    · rw [if_neg hc]
      refine ⟨hw, by omega, by omega, by omega, Or.inl hd, fun _ => by omega,
        fun _ => by omega⟩
  · have hne : m.x ≠ 0 := fun hx => by
      have := hlo hx
      omega
    by_cases hc : m.x + m.dx ≤ 0 ∨ m.x + m.dx + m.w ≥ 300
    · rw [if_pos hc]
      refine ⟨hw, by omega, by omega, by omega, Or.inl (by omega), fun _ => by omega,
        fun _ => by omega⟩
    · rw [if_neg hc]
      refine ⟨hw, by omega, by omega, by omega, Or.inr hd, fun _ => by omega,
        fun _ => by omega⟩

lemma movingInv_initial : MovingInv movingObstacle2 := by
  unfold MovingInv movingObstacle2
  decide

lemma movingInv_iterate (n : Nat) : MovingInv (stepMoving^[n] movingObstacle2) := by
  induction n with
  | zero => exact movingInv_initial
  | succ n ih =>
    rw [Function.iterate_succ_apply']
    exact stepMoving_inv _ ih

lemma moving_collect (lv : Level) (id : String) : (collect lv id).moving = lv.moving := by
  unfold collect
  dsimp only
  split <;> rfl

lemma levelChange_moving (s : GameState) (ev : Event) (lv lv' : Level)
    (h : LevelChange s ev lv lv') :
    lv'.moving = lv.moving ∨ lv'.moving = lv.moving.map stepMoving := by
  rcases h with ⟨-, rfl⟩ | ⟨e, -, -, -, -, rfl⟩ | ⟨aq, -, -, -, rfl⟩
  · exact Or.inr rfl
  · exact Or.inl rfl
  · exact Or.inl (moving_collect lv aq.id)

/-- In every reachable state every moving obstacle of every level is on its track. -/
lemma reachable_movingInv (e1 e2 : Pos) (s : GameState) (hr : Reachable e1 e2 s) :
    ∀ lv ∈ s.levels, ∀ m ∈ lv.moving, MovingInv m := by
  induction hr with
  | init =>
    intro lv hlv m hm
    simp only [initialState, LEVELS, LEVELS_TEMPLATE, List.mem_cons, List.mem_singleton,
      List.not_mem_nil, or_false] at hlv
    rcases hlv with rfl | rfl
    · simp at hm
    · simp only [List.mem_singleton] at hm
      subst hm
      exact movingInv_initial
  | next s t ev _ hst ih =>
    intro lv hlv m hm
    rcases step_levels s t ev hst with h0 | ⟨a, a', hl, hset, hch⟩
    · exact ih lv (h0 ▸ hlv) m hm
    · rw [hset] at hlv
      rcases List.mem_or_eq_of_mem_set hlv with hmem | rfl
      · exact ih lv hmem m hm
      · have ha : a ∈ s.levels := List.getElem?_mem hl
        rcases levelChange_moving s ev a lv hch with h1 | h1
        · exact ih a ha m (h1 ▸ hm)
        · rw [h1] at hm
          obtain ⟨m0, hm0, rfl⟩ := List.mem_map.mp hm
          exact stepMoving_inv m0 (ih a ha m0 hm0)

/-- C11. One tick of the moving obstacles applies `stepMoving` to every moving obstacle
of the current level: it adds dx to x, keeps the width, and negates dx exactly when the
updated x satisfies `x <= 0` or `x + w >= 300`.  For the obstacle of level 2 (x = 150,
w = 40, dx = 2) and every number n of ticks: the sign of dx changes on the next tick
if and only if the updated x is `<= 0` or has `x + w >= 300`, and after n ticks
`0 <= x` and `x + w <= 300`.  The same bounds hold for every moving obstacle of every
level in every reachable state, however the ticks are interleaved with other events. -/
theorem movingObstacle2_stays_in_room :
    (∀ m : Moving, (stepMoving m).x = m.x + m.dx ∧ (stepMoving m).w = m.w ∧
      (stepMoving m).dx =
        if (stepMoving m).x ≤ 0 ∨ (stepMoving m).x + m.w ≥ 300 then -m.dx else m.dx) ∧
    (∀ (s : GameState) (lv : Level), level s = some lv →
      ((tickMoving s).bind level).map (fun l => l.moving) =
        some (lv.moving.map stepMoving)) ∧
    (∀ n : Nat,
      ((stepMoving^[n + 1] movingObstacle2).dx = -(stepMoving^[n] movingObstacle2).dx ↔
        ((stepMoving^[n + 1] movingObstacle2).x ≤ 0 ∨
         (stepMoving^[n + 1] movingObstacle2).x + (stepMoving^[n + 1] movingObstacle2).w
           ≥ 300)) ∧
      0 ≤ (stepMoving^[n] movingObstacle2).x ∧
      (stepMoving^[n] movingObstacle2).x + (stepMoving^[n] movingObstacle2).w ≤ 300) ∧
    (∀ (e1 e2 : Pos) (s : GameState), Reachable e1 e2 s →
      ∀ lv ∈ s.levels, ∀ m ∈ lv.moving, 0 ≤ m.x ∧ m.x + m.w ≤ 300) := by
  refine ⟨fun m => ⟨rfl, rfl, ?_⟩, ?_, ?_, ?_⟩
  · simp only [stepMoving, mul_neg, mul_one]
  · intro s lv hl
    have h1 : tickMoving s =
        some (setLevel s { lv with moving := lv.moving.map stepMoving }) := by
      simp only [tickMoving, hl]
    rw [h1]
    show Option.map _ (level (setLevel s _)) = _
    rw [level_setLevel s lv _ hl]
    rfl
  · intro n
    obtain ⟨hw, h0, h260, -, hdx, -, -⟩ := movingInv_iterate n
    refine ⟨?_, h0, by omega⟩
    rw [Function.iterate_succ_apply']
    generalize stepMoving^[n] movingObstacle2 = m at hw h0 h260 hdx
    simp only [stepMoving]
    by_cases hc : m.x + m.dx ≤ 0 ∨ m.x + m.dx + m.w ≥ 300
    · simp only [hc, if_true, mul_neg, mul_one]
    · simp only [hc, if_false, iff_false]
      omega
  · intro e1 e2 s hr lv hlv m hm
    obtain ⟨hw, h0, h260, -, -, -, -⟩ := reachable_movingInv e1 e2 s hr lv hlv m hm
    exact ⟨h0, by omega⟩

/-- Witness of C11: after 55 ticks the obstacle has reached x = 260, its right edge on
the wall at 300, and points back with dx = -2. -/
theorem movingObstacle2_stays_in_room_witness :
    stepMoving^[55] movingObstacle2 = { x := 260, y := 100, w := 40, h := 16, dx := -2 } ∧
    0 ≤ (stepMoving^[55] movingObstacle2).x ∧
    (stepMoving^[55] movingObstacle2).x + (stepMoving^[55] movingObstacle2).w ≤ 300 :=
  ⟨by decide, (movingObstacle2_stays_in_room.2.2.1 55).2⟩

/-! ## Ignored input -/

/-- C12. While a question prompt is open or the game is over, `handleKey` returns the
state it was given and opens no dialog, for every key event (any key, auto-repeat or
not) and whatever would be typed into a code prompt: no movement, no death, no new
prompt, no lock change, no level advance. -/
theorem handleKey_ignored_while_paused (s : GameState) (e : KeyEvent)
    (reply : Option String)
    (h : s.activeQuestion.isSome = true ∨ s.gameOver = true) :
    handleKey s e reply = some (s, []) := by
  rcases h with h | h
  · exact handleKey_prompt s e reply h
  · exact handleKey_gameOver s e reply h

/-- Witness of C12: the prompt of `l1p1` is open and the key `d` is pressed. -/
theorem handleKey_ignored_while_paused_witness :
    handleKey (promptState "") { key := "d", isRepeat := false } none =
      some (promptState "", []) :=
  handleKey_ignored_while_paused (promptState "") { key := "d", isRepeat := false } none
    (Or.inl rfl)

/-! ## Death and lives -/

lemma lives_tickCountdown (s : GameState) :
    (tickCountdown s).lives = s.lives ∨ (tickCountdown s).lives = max 0 (s.lives - 1) := by
  unfold tickCountdown
  split
  · exact Or.inl rfl
  · split
    · exact Or.inr rfl
    · exact Or.inl rfl

/-- What one event does to `lives`: nothing, one life lost with floor zero, or one life
gained. -/
lemma step_lives (s t : GameState) (ev : Event) (h : step s ev = some t) :
    t.lives = s.lives ∨ t.lives = max 0 (s.lives - 1) ∨ t.lives = s.lives + 1 := by
  cases ev with
  | key e reply =>
    simp only [step, Option.map_eq_some', Prod.exists, exists_and_right, exists_eq_right] at h
    obtain ⟨eff, h⟩ := h
    rcases handleKey_cases s e reply t eff h with rfl | ⟨-, -, lv, -, hc⟩
    · exact Or.inl rfl
    · rcases hc with ⟨-, rfl⟩ | ⟨pu, -, rfl⟩ | ⟨-, -, -, rfl⟩ | ⟨-, -, rfl⟩ | ⟨-, -, rfl⟩
      · exact Or.inr (Or.inl rfl)
      · exact Or.inl rfl
      · exact Or.inl rfl
      · exact Or.inl rfl
      · exact Or.inl rfl
  | countdown =>
    simp only [step, Option.some.injEq] at h
    subst h
    rcases lives_tickCountdown s with h | h
    · exact Or.inl h
    · exact Or.inr (Or.inl h)
  | movingTick =>
    simp only [step, tickMoving] at h
    cases hl : level s with
    | none => simp [hl] at h
    | some lv =>
      simp only [hl, Option.some.injEq] at h
      exact Or.inl (h ▸ rfl)
  | typeAnswer text =>
    simp only [step, Option.some.injEq] at h
    subst h
    left
    split <;> rfl
  | submit =>
    simp only [step, Option.map_eq_some', Prod.exists, exists_and_right, exists_eq_right] at h
    obtain ⟨eff, h⟩ := h
    cases ha : s.activeQuestion with
    | none =>
      simp only [submitAnswer, ha, Option.some.injEq, Prod.mk.injEq] at h
      exact Or.inl (h.1 ▸ rfl)
    | some aq =>
      cases hc : isCorrect s.answerInput aq.answer with
      | false =>
        rw [submitAnswer_of_wrong s aq ha hc] at h
        simp only [Option.some.injEq, Prod.mk.injEq] at h
        exact Or.inl (h.1 ▸ rfl)
      | true =>
        cases hl : level s with
        | none => simp [submitAnswer, ha, hc, hl] at h
        | some lv =>
          rw [submitAnswer_of_correct s aq lv ha hl hc] at h
          simp only [Option.some.injEq, Prod.mk.injEq] at h
          rw [← h.1]
          show (applyBonus s aq).lives = _ ∨ (applyBonus s aq).lives = _ ∨
            (applyBonus s aq).lives = _
          rw [lives_applyBonus]
          by_cases hty : aq.type = "life"
          · rw [if_pos hty]
            exact Or.inr (Or.inr rfl)
          · rw [if_neg hty, add_zero]
            exact Or.inl rfl
  | cancel =>
    simp only [step, Option.some.injEq] at h
    subst h
    left
    split <;> rfl
  | death =>
    simp only [step, Option.some.injEq] at h
    exact Or.inr (Or.inl (h ▸ rfl))

/-- In every reachable state `lives` is at least zero. -/
lemma reachable_lives_nonneg (e1 e2 : Pos) (s : GameState) (hr : Reachable e1 e2 s) :
    0 ≤ s.lives := by
  induction hr with
  | init => simp [initialState]
  | next s t ev _ hst ih =>
    rcases step_lives s t ev hst with h | h | h
    · omega
    · rw [h]; exact le_max_left 0 _
    · omega

/-- C13. For every state, `onDeath` sets `lives` to `max(0, lives - 1)`; the resulting
state has `gameOver` true whenever the resulting `lives` is 0, and for a game that was
not over `gameOver` becomes true exactly when the resulting `lives` is 0.  When lives
remain above zero the player is back at the spawn (10, 10), `timeLeft` is 30 and
`gameOver` is as it was, so a `gameOver` that was false stays false.  In every case the level index and the
whole of `LEVELS` (every `collected` flag, every `locked` flag) are unchanged.  In
every reachable state `lives` is at least 0. -/
theorem onDeath_spec (s : GameState) :
    (onDeath s).lives = max 0 (s.lives - 1) ∧
    ((onDeath s).lives = 0 → (onDeath s).gameOver = true) ∧
    (s.gameOver = false → ((onDeath s).gameOver = true ↔ (onDeath s).lives = 0)) ∧
    (0 < (onDeath s).lives →
      (onDeath s).player = { x := 10, y := 10 } ∧ (onDeath s).timeLeft = 30 ∧
      (onDeath s).gameOver = s.gameOver ∧
      (s.gameOver = false → (onDeath s).gameOver = false)) ∧
    (onDeath s).levelIndex = s.levelIndex ∧ (onDeath s).levels = s.levels ∧
    (∀ e1 e2 : Pos, Reachable e1 e2 s → 0 ≤ s.lives) := by
  refine ⟨rfl, ?_, ?_, ?_, rfl, rfl, fun e1 e2 hr => reachable_lives_nonneg e1 e2 s hr⟩
  · intro h
    simp only [onDeath] at h ⊢
    rw [if_pos h]
  · intro hg
    simp only [onDeath, hg]
    by_cases h0 : max 0 (s.lives - 1) = 0
    · simp only [h0, if_true]
    · simp only [h0, if_false, Bool.false_eq_true]
  · intro h
    have hgo : (onDeath s).gameOver = s.gameOver := by
      simp only [onDeath] at h ⊢
      rw [if_neg (by omega)]
    exact ⟨rfl, rfl, hgo, fun hg => hgo.trans hg⟩

/-- Witness of C13: a death with one life left, at the start of level 1. -/
theorem onDeath_spec_witness :
    (onDeath lastSecondState).lives = 0 ∧ (onDeath lastSecondState).gameOver = true ∧
    (onDeath lastSecondState).levels = lastSecondState.levels :=
  ⟨(onDeath_spec lastSecondState).1.trans (by decide),
    (onDeath_spec lastSecondState).2.1 (by decide),
    (onDeath_spec lastSecondState).2.2.2.2.2.1⟩

/-! ## The player and the level index -/

lemma player_tickCountdown (s : GameState) :
    (tickCountdown s).levelIndex = s.levelIndex ∧
    ((tickCountdown s).player = s.player ∨ (tickCountdown s).player = { x := 10, y := 10 }) := by
  unfold tickCountdown
  split
  · exact ⟨rfl, Or.inl rfl⟩
  · split
    · exact ⟨rfl, Or.inr rfl⟩
    · exact ⟨rfl, Or.inl rfl⟩

lemma player_applyBonus (s : GameState) (aq : PowerUp) :
    (applyBonus s aq).player = s.player := by
  unfold applyBonus
  split <;> split <;> rfl

/-- What one event does to the player and to the level index: nothing; or the player
is sent to the spawn, in the same level (a death) or in the next one (an advance); or
the player moves to a candidate that hits no enemy and no static obstacle of the
current level. -/
lemma step_player_level (s t : GameState) (ev : Event) (h : step s ev = some t) :
    (t.player = s.player ∧ t.levelIndex = s.levelIndex) ∨
    (t.player = { x := 10, y := 10 } ∧
      (t.levelIndex = s.levelIndex ∨
       (t.levelIndex = s.levelIndex + 1 ∧ s.levelIndex + 1 < s.levels.length))) ∨
    (∃ e lv, level s = some lv ∧ t.player = candidate s.player e ∧
      t.levelIndex = s.levelIndex ∧ t.levels = s.levels ∧
      lv.enemies.any (fun en => hit (candidate s.player e) en) = false ∧
      lv.obstacles.any (fun ob => hit (candidate s.player e) ob) = false) := by
  cases ev with
  | key e reply =>
    simp only [step, Option.map_eq_some', Prod.exists, exists_and_right, exists_eq_right] at h
    obtain ⟨eff, h⟩ := h
    rcases handleKey_cases s e reply t eff h with rfl | ⟨-, -, lv, hl, hc⟩
    · exact Or.inl ⟨rfl, rfl⟩
    · rcases hc with ⟨-, rfl⟩ | ⟨pu, -, rfl⟩ | ⟨-, -, -, rfl⟩ | ⟨-, hadv, rfl⟩ | ⟨hen, hob, rfl⟩
      · exact Or.inr (Or.inl ⟨rfl, Or.inl rfl⟩)
      · exact Or.inl ⟨rfl, rfl⟩
      · exact Or.inl ⟨rfl, rfl⟩
      · exact Or.inr (Or.inl ⟨rfl, Or.inr ⟨rfl, hadv⟩⟩)
      · exact Or.inr (Or.inr ⟨e, lv, hl, rfl, rfl, rfl, hen, hob⟩)
  | countdown =>
    simp only [step, Option.some.injEq] at h
    subst h
    obtain ⟨hi, hp | hp⟩ := player_tickCountdown s
    · exact Or.inl ⟨hp, hi⟩
    · exact Or.inr (Or.inl ⟨hp, Or.inl hi⟩)
  | movingTick =>
    simp only [step, tickMoving] at h
    cases hl : level s with
    | none => simp [hl] at h
    | some lv =>
      simp only [hl, Option.some.injEq] at h
      subst h
      exact Or.inl ⟨rfl, rfl⟩
  | typeAnswer text =>
    simp only [step, Option.some.injEq] at h
    subst h
    left
    split <;> exact ⟨rfl, rfl⟩
  | submit =>
    simp only [step, Option.map_eq_some', Prod.exists, exists_and_right, exists_eq_right] at h
    obtain ⟨eff, h⟩ := h
    cases ha : s.activeQuestion with
    | none =>
      simp only [submitAnswer, ha, Option.some.injEq, Prod.mk.injEq] at h
      exact Or.inl (h.1 ▸ ⟨rfl, rfl⟩)
    | some aq =>
      cases hc : isCorrect s.answerInput aq.answer with
      | false =>
        rw [submitAnswer_of_wrong s aq ha hc] at h
        simp only [Option.some.injEq, Prod.mk.injEq] at h
        exact Or.inl (h.1 ▸ ⟨rfl, rfl⟩)
      | true =>
        cases hl : level s with
        | none => simp [submitAnswer, ha, hc, hl] at h
        | some lv =>
          rw [submitAnswer_of_correct s aq lv ha hl hc] at h
          simp only [Option.some.injEq, Prod.mk.injEq] at h
          rw [← h.1]
          exact Or.inl ⟨player_applyBonus s aq, levelIndex_applyBonus s aq⟩
  | cancel =>
    simp only [step, Option.some.injEq] at h
    subst h
    left
    split <;> exact ⟨rfl, rfl⟩
  | death =>
    simp only [step, Option.some.injEq] at h
    subst h
    exact Or.inr (Or.inl ⟨rfl, Or.inl rfl⟩)

lemma candidate_bounds (p : Pos) (e : KeyEvent) :
    0 ≤ (candidate p e).x ∧ (candidate p e).x ≤ 270 ∧
    0 ≤ (candidate p e).y ∧ (candidate p e).y ≤ 270 := by
  simp only [candidate]
  omega

/-- In every reachable state the player is inside the room. -/
lemma reachable_player_bounds (e1 e2 : Pos) (s : GameState) (hr : Reachable e1 e2 s) :
    0 ≤ s.player.x ∧ s.player.x ≤ 270 ∧ 0 ≤ s.player.y ∧ s.player.y ≤ 270 := by
  induction hr with
  | init => simp [initialState]
  | next s t ev _ hst ih =>
    rcases step_player_level s t ev hst with ⟨hp, -⟩ | ⟨hp, -⟩ | ⟨e, lv, -, hp, -⟩
    · rw [hp]; exact ih
    · rw [hp]; decide
    · rw [hp]; exact candidate_bounds s.player e

lemma step_levels_length (s t : GameState) (ev : Event) (h : step s ev = some t) :
    t.levels.length = s.levels.length := by
  rcases step_levels s t ev h with h0 | ⟨lv, lv', -, hset, -⟩
  · rw [h0]
  · rw [hset, List.length_set]

/-- In every reachable state `LEVELS` has its two levels and `levelIndex` is one of
them. -/
lemma reachable_levelIndex (e1 e2 : Pos) (s : GameState) (hr : Reachable e1 e2 s) :
    s.levels.length = 2 ∧ s.levelIndex < s.levels.length := by
  induction hr with
  | init => simp [initialState, LEVELS, LEVELS_TEMPLATE]
  | next s t ev _ hst ih =>
    have hlen := step_levels_length s t ev hst
    refine ⟨hlen ▸ ih.1, ?_⟩
    rcases step_player_level s t ev hst with ⟨-, hi⟩ | ⟨-, hi | ⟨hi, hlt⟩⟩ | ⟨e, lv, -, -, hi, -⟩
    · rw [hi, hlen]; exact ih.2
    · rw [hi, hlen]; exact ih.2
    · rw [hi, hlen]; exact hlt
    · rw [hi, hlen]; exact ih.2

/-- C14. For every player position and key, the candidate of `handleKey` is the
position moved by 20 along the axis the key names (up and left subtract, down and
right add; arrow keys or W, A, S, D in either case) with each coordinate clamped to
[0, 270]; so both coordinates of a candidate lie in [0, 270].  In every reachable
state the player's x and y lie in [0, 270]: the 30 by 30 box is inside the 300 by 300
room. -/
theorem candidate_clamped (p : Pos) (e : KeyEvent) :
    ((toLowerCase e.key = "arrowup" ∨ toLowerCase e.key = "w") →
      candidate p e = { x := max 0 (min 270 p.x), y := max 0 (min 270 (p.y - 20)) }) ∧
    ((toLowerCase e.key = "arrowdown" ∨ toLowerCase e.key = "s") →
      candidate p e = { x := max 0 (min 270 p.x), y := max 0 (min 270 (p.y + 20)) }) ∧
    ((toLowerCase e.key = "arrowleft" ∨ toLowerCase e.key = "a") →
      candidate p e = { x := max 0 (min 270 (p.x - 20)), y := max 0 (min 270 p.y) }) ∧
    ((toLowerCase e.key = "arrowright" ∨ toLowerCase e.key = "d") →
      candidate p e = { x := max 0 (min 270 (p.x + 20)), y := max 0 (min 270 p.y) }) ∧
    (0 ≤ (candidate p e).x ∧ (candidate p e).x ≤ 270 ∧
      0 ≤ (candidate p e).y ∧ (candidate p e).y ≤ 270) ∧
    (∀ (e1 e2 : Pos) (s : GameState), Reachable e1 e2 s →
      0 ≤ s.player.x ∧ s.player.x + 30 ≤ 300 ∧ 0 ≤ s.player.y ∧ s.player.y + 30 ≤ 300) := by
  refine ⟨?_, ?_, ?_, ?_, candidate_bounds p e, ?_⟩
  · rintro (h | h) <;> simp [candidate, h]
  · rintro (h | h) <;> simp [candidate, h]
  · rintro (h | h) <;> simp [candidate, h]
  · rintro (h | h) <;> simp [candidate, h]
  · intro e1 e2 s hr
    have := reachable_player_bounds e1 e2 s hr
    omega

/-- Witness of C14: from the spawn, `ArrowLeft` meets the left wall at x = 0. -/
theorem candidate_clamped_witness :
    candidate { x := 10, y := 10 } { key := "ArrowLeft", isRepeat := false } =
      { x := 0, y := 10 } :=
  ((candidate_clamped { x := 10, y := 10 } { key := "ArrowLeft", isRepeat := false }).2.2.1
    (Or.inl (by decide))).trans (by decide)

/-! ## Through the exit -/

/-- C15. A key press that gets past the guards of `handleKey` (not an auto-repeat, no
prompt open, game not over) and whose candidate overlaps the exit while the exit is
unlocked, and overlaps no enemy, no static or moving obstacle and no uncollected
power-up: if the current level is not the last, the level index grows by exactly 1,
the player is at the spawn (10, 10), `timeLeft` is 30 and everything else, lives
included, is as before, with no dialog; if it is the last level, the alert
"You finished all levels! 🎉" is shown and the state is unchanged.  In every reachable
state `LEVELS` has two entries and the level index is a valid index into it. -/
theorem handleKey_unlocked_exit (s : GameState) (e : KeyEvent) (reply : Option String)
    (lv : Level)
    (hr : e.isRepeat = false) (hq : s.activeQuestion = none) (hg : s.gameOver = false)
    (hl : level s = some lv)
    (hen : lv.enemies.any (fun en => hit (candidate s.player e) en) = false)
    (hob : lv.obstacles.any (fun ob => hit (candidate s.player e) ob) = false)
    (hmv : lv.moving.any (fun mov => hit (candidate s.player e) mov.rect) = false)
    (hpu : detectPowerup lv (candidate s.player e) = none)
    (hex : hit (candidate s.player e) (exitBox lv.exit) = true)
    (hu : lv.exit.locked = false) :
    (s.levelIndex + 1 < s.levels.length →
      handleKey s e reply =
        some ({ s with levelIndex := s.levelIndex + 1, player := { x := 10, y := 10 },
                       timeLeft := 30 }, [])) ∧
    (¬ s.levelIndex + 1 < s.levels.length →
      handleKey s e reply = some (s, [Effect.alert "You finished all levels! 🎉"])) ∧
    (∀ (e1 e2 : Pos) (t : GameState), Reachable e1 e2 t →
      t.levels.length = 2 ∧ t.levelIndex < t.levels.length) := by
  simp only [exitBox] at hex
  refine ⟨fun h => ?_, fun h => ?_, reachable_levelIndex⟩
  · unfold handleKey
    simp only [hr, hq, hg, hl, hen, hob, hmv, hpu, hex, hu, h]
    simp
  · unfold handleKey
    simp only [hr, hq, hg, hl, hen, hob, hmv, hpu, hex, hu, h]
    simp

/-- Witness of C15: level 1 is unlocked, the player at (10, 30) steps right into its
exit at (40, 40) and arrives at the spawn of level 2. -/
theorem handleKey_unlocked_exit_witness :
    handleKey unlockedState { key := "d", isRepeat := false } none =
      some (advancedState, []) :=
  (handleKey_unlocked_exit unlockedState { key := "d", isRepeat := false } none
    (level1 { x := 40, y := 40 } true true false) rfl rfl rfl rfl
    (by decide) (by decide) (by decide) (by decide) (by decide) rfl).1 (by decide)

/-! ## Enemies -/

/-- C16. With no prompt open and the game not over, a directional key press (not an
auto-repeat) whose clamped candidate overlaps an enemy of the current level makes
`handleKey` return the state of `onDeath` and no dialog: lives are `max(0, lives - 1)`,
the player is at (10, 10), `timeLeft` is 30, no prompt is open, `LEVELS` (locks and
collected flags) and the level index are unchanged.  Nothing is assumed about
obstacles, power-ups or the exit, so this holds also when the candidate overlaps
them. -/
theorem handleKey_enemy_death (s : GameState) (e : KeyEvent) (reply : Option String)
    (lv : Level)
    (hq : s.activeQuestion = none) (hg : s.gameOver = false)
    (hr : e.isRepeat = false) (_hd : isDirectional e = true)
    (hl : level s = some lv)
    (hen : lv.enemies.any (fun en => hit (candidate s.player e) en) = true) :
    handleKey s e reply = some (onDeath s, []) ∧
    (onDeath s).lives = max 0 (s.lives - 1) ∧
    (onDeath s).player = { x := 10, y := 10 } ∧ (onDeath s).timeLeft = 30 ∧
    (onDeath s).activeQuestion = none ∧ (onDeath s).levels = s.levels ∧
    (onDeath s).levelIndex = s.levelIndex := by
  refine ⟨?_, rfl, rfl, rfl, hq, rfl, rfl⟩
  unfold handleKey
  simp only [hr, hq, hg, hl, hen]
  simp

/-- Witness of C16: the exit of level 1 lies on the enemy, the candidate (190, 70)
overlaps both, and the player dies. -/
theorem handleKey_enemy_death_witness :
    handleKey exitOverEnemyState { key := "d", isRepeat := false } none =
      some (onDeath exitOverEnemyState, []) :=
  (handleKey_enemy_death exitOverEnemyState { key := "d", isRepeat := false } none
    (level1 { x := 200, y := 80 } false false true) rfl rfl rfl (by decide) rfl
    (by decide)).1

/-! ## Geometry -/

/-- C17. For a player position `p` and a rectangle `o` of positive width and height,
`hit(p, o)` is true exactly when the 30 by 30 box at `p` and `o` share an integer point
under half-open intervals: some `u` with `p.x <= u < p.x + 30` and
`o.x <= u < o.x + o.w`, and some `v` with `p.y <= v < p.y + 30` and
`o.y <= v < o.y + o.h`.  Boxes that only touch along an edge, on any of the four
sides, do not hit. -/
theorem hit_iff_shares_point (p : Pos) (o : Rect) (hw : 0 < o.w) (hh : 0 < o.h) :
    (hit p o = true ↔
      ∃ u v : Int, p.x ≤ u ∧ u < p.x + 30 ∧ o.x ≤ u ∧ u < o.x + o.w ∧
        p.y ≤ v ∧ v < p.y + 30 ∧ o.y ≤ v ∧ v < o.y + o.h) ∧
    (o.x = p.x + 30 → hit p o = false) ∧ (o.x + o.w = p.x → hit p o = false) ∧
    (o.y = p.y + 30 → hit p o = false) ∧ (o.y + o.h = p.y → hit p o = false) := by
  have hiff : hit p o = true ↔
      (p.x < o.x + o.w ∧ p.x + 30 > o.x) ∧ p.y < o.y + o.h ∧ p.y + 30 > o.y := by
    simp only [hit, Bool.and_eq_true, decide_eq_true_eq, and_assoc]
  have hfalse : ∀ q : Prop, (hit p o = true → q) → ¬ q → hit p o = false := by
    intro q h1 h2
    cases hx : hit p o with
    | false => rfl
    | true => exact absurd (h1 hx) h2
  refine ⟨?_, ?_, ?_, ?_, ?_⟩
  · rw [hiff]
    constructor
    · rintro ⟨⟨h1, h2⟩, h3, h4⟩
      exact ⟨max p.x o.x, max p.y o.y, by omega, by omega, by omega, by omega,
        by omega, by omega, by omega, by omega⟩
    · rintro ⟨u, v, h1, h2, h3, h4, h5, h6, h7, h8⟩
      exact ⟨⟨by omega, by omega⟩, by omega, by omega⟩
  · intro h
    exact hfalse _ hiff.mp (by omega)
  · intro h
    exact hfalse _ hiff.mp (by omega)
  · intro h
    exact hfalse _ hiff.mp (by omega)
  · intro h
    exact hfalse _ hiff.mp (by omega)

/-- Witness of C17: the box at (10, 10) and the rectangle (40, 10, 20, 20) touch along
the line x = 40 and do not hit. -/
theorem hit_iff_shares_point_witness :
    hit { x := 10, y := 10 } { x := 40, y := 10, w := 20, h := 20 } = false :=
  (hit_iff_shares_point { x := 10, y := 10 } { x := 40, y := 10, w := 20, h := 20 }
    (by decide) (by decide)).2.1 (by decide)

/-! ## The random exit -/

lemma roundHalfEven_ge (q : ℚ) : ⌊q⌋ ≤ roundHalfEven q := by
  unfold roundHalfEven
  dsimp only
  split
  · exact le_refl _
  · split
    · omega
    · split <;> omega

lemma roundHalfEven_le (q : ℚ) : roundHalfEven q ≤ ⌊q⌋ + 1 := by
  unfold roundHalfEven
  dsimp only
  split
  · omega
  · split
    · omega
    · split <;> omega

lemma roundHalfEven_of_lt (q : ℚ) (h : q - ⌊q⌋ < 1 / 2) : roundHalfEven q = ⌊q⌋ := by
  unfold roundHalfEven
  dsimp only
  rw [if_pos h]

/-- A number at most a quarter above `n + 1` rounds to at most `n + 1`. -/
lemma roundHalfEven_le_of_le (x : ℚ) (n : Int) (h : x ≤ n + 1 + 1 / 4) :
    roundHalfEven x ≤ n + 1 := by
  rcases lt_or_le (⌊x⌋) (n + 1) with hf | hf
  · have := roundHalfEven_le x
    omega
  · have hfl : ((n + 1 : Int) : ℚ) ≤ ((⌊x⌋ : Int) : ℚ) := by exact_mod_cast hf
    push_cast at hfl
    have hfrac : x - ⌊x⌋ < 1 / 2 := by linarith
    rw [roundHalfEven_of_lt _ hfrac]
    have hfl2 : ((⌊x⌋ : Int) : ℚ) ≤ x := Int.floor_le _
    have h3 : ((⌊x⌋ : Int) : ℚ) < ((n + 2 : Int) : ℚ) := by
      push_cast
      linarith
    have h4 : ⌊x⌋ < n + 2 := by exact_mod_cast h3
    omega

lemma ulp_pos (q : ℚ) : 0 < ulp q := by
  unfold ulp
  positivity

lemma roundDouble_nonneg (q : ℚ) (h : 0 ≤ q) : 0 ≤ roundDouble q := by
  unfold roundDouble
  have hu := ulp_pos q
  have h1 : (0 : Int) ≤ ⌊q / ulp q⌋ := Int.floor_nonneg.mpr (div_nonneg h hu.le)
  have h2 := roundHalfEven_ge (q / ulp q)
  have h3 : (0 : ℚ) ≤ (roundHalfEven (q / ulp q) : ℚ) := by exact_mod_cast le_trans h1 h2
  exact mul_nonneg h3 hu.le

lemma roundDouble_le_add_ulp (q : ℚ) : roundDouble q ≤ q + ulp q := by
  unfold roundDouble
  have hu := ulp_pos q
  have h2 := roundHalfEven_le (q / ulp q)
  have h3 : (roundHalfEven (q / ulp q) : ℚ) ≤ q / ulp q + 1 := by
    have : ((⌊q / ulp q⌋ : Int) : ℚ) ≤ q / ulp q := Int.floor_le _
    have h4 : (roundHalfEven (q / ulp q) : ℚ) ≤ ((⌊q / ulp q⌋ + 1 : Int) : ℚ) := by
      exact_mod_cast h2
    push_cast at h4
    linarith
  calc (roundHalfEven (q / ulp q) : ℚ) * ulp q ≤ (q / ulp q + 1) * ulp q :=
        mul_le_mul_of_nonneg_right h3 hu.le
    _ = q + ulp q := by field_simp

lemma ulp_le_one (q : ℚ) (h : q < 128) : ulp q ≤ 1 := by
  unfold ulp
  have hlog : Int.log 2 q < 7 := by
    rcases le_or_lt q 0 with h0 | h0
    · rw [Int.log_of_right_le_zero 2 h0]; norm_num
    · apply (Int.lt_zpow_iff_log_lt (by norm_num) h0).mp
      norm_num
      exact h
  apply zpow_le_one_of_nonpos₀ (by norm_num)
  omega

/-- The gap between doubles in the binade `[2 ^ E, 2 ^ (E + 1))`. -/
lemma ulp_of_binade (q : ℚ) (E : Int) (hE : -1022 ≤ E) (h1 : (2 : ℚ) ^ E ≤ q)
    (h2 : q < (2 : ℚ) ^ (E + 1)) : ulp q = (2 : ℚ) ^ (E - 52) := by
  unfold ulp
  have h0 : (0 : ℚ) < q := lt_of_lt_of_le (by positivity) h1
  have hlo : E ≤ Int.log 2 q := by
    apply (Int.zpow_le_iff_le_log (by norm_num) h0).mp
    exact_mod_cast h1
  have hhi : Int.log 2 q < E + 1 := by
    apply (Int.lt_zpow_iff_log_lt (by norm_num) h0).mp
    exact_mod_cast h2
  have : max (Int.log 2 q) (-1022) - 52 = E - 52 := by omega
  rw [this]

/-- A product of at most `220 * (1 - 2 ^ (-53))` rounds to a double below 220: below 128
the rounding adds at most 1, and from 128 on the doubles are 2 ^ (-45) apart and the
product is more than half a gap below 220. -/
lemma roundDouble_lt_220 (q : ℚ) (h : q ≤ 220 - 220 / 2 ^ 53) : roundDouble q < 220 := by
  rcases lt_or_le q 128 with hq | hq
  · have := roundDouble_le_add_ulp q
    have := ulp_le_one q hq
    linarith
  · have hu : ulp q = (2 : ℚ) ^ ((7 : Int) - 52) :=
      ulp_of_binade q 7 (by norm_num) (by norm_num; exact hq)
        (by norm_num at h ⊢; linarith)
    have hu2 : ulp q = 1 / 2 ^ 45 := by
      rw [hu]
      norm_num
    unfold roundDouble
    rw [hu2]
    have hx : q / (1 / 2 ^ 45) = q * 2 ^ 45 := by field_simp
    rw [hx]
    have hb : q * 2 ^ 45 ≤ ((7740561859543038 : Int) : ℚ) + 1 + 1 / 4 := by
      norm_num at h ⊢
      linarith
    have hle := roundHalfEven_le_of_le (q * 2 ^ 45) 7740561859543038 hb
    have hc : (roundHalfEven (q * 2 ^ 45) : ℚ) ≤ ((7740561859543038 + 1 : Int) : ℚ) := by
      exact_mod_cast hle
    push_cast at hc
    have hp : (0 : ℚ) < 1 / 2 ^ 45 := by positivity
    calc (roundHalfEven (q * 2 ^ 45) : ℚ) * (1 / 2 ^ 45)
        ≤ 7740561859543039 * (1 / 2 ^ 45) := mul_le_mul_of_nonneg_right hc hp.le
      _ < 220 := by norm_num

lemma doubleOf_nonneg (m : Nat) (e : Int) : 0 ≤ doubleOf m e := by
  unfold doubleOf
  positivity

/-- A number with a 53-bit significand that is below 1 is at most `1 - 2 ^ (-53)`, the
largest double below 1. -/
lemma doubleOf_le_pred_one (m : Nat) (e : Int) (hm : m < 2 ^ 53) (h : doubleOf m e < 1) :
    doubleOf m e ≤ 1 - 1 / 2 ^ 53 := by
  unfold doubleOf at h ⊢
  rcases Int.eq_nat_or_neg e with ⟨n, rfl | rfl⟩
  · have h1 : ((m * 2 ^ n : Nat) : ℚ) < 1 := by
      push_cast
      simpa using h
    have h2 : m * 2 ^ n < 1 := by exact_mod_cast h1
    have h3 : m * 2 ^ n = 0 := by omega
    have h4 : ((m : ℚ) * (2 : ℚ) ^ ((n : Int)) : ℚ) = ((m * 2 ^ n : Nat) : ℚ) := by
      push_cast
      simp
    rw [h4, h3]
    norm_num
  · have hpow : (2 : ℚ) ^ (-(n : Int)) = 1 / 2 ^ n := by
      rw [zpow_neg, zpow_natCast, one_div]
    rw [hpow] at h ⊢
    have hpos : (0 : ℚ) < 2 ^ n := by positivity
    have hmn : (m : ℚ) < 2 ^ n := by
      have := (div_lt_one hpos).mp (by simpa [mul_one_div] using h)
      exact this
    have hmn2 : m < 2 ^ n := by exact_mod_cast hmn
    rcases le_or_lt n 53 with hn | hn
    · have h53 : (2 : ℚ) ^ n ≤ 2 ^ 53 := pow_le_pow_right₀ (by norm_num) hn
      have hm1 : (m : ℚ) + 1 ≤ 2 ^ n := by exact_mod_cast hmn2
      rw [mul_one_div, div_le_iff₀ hpos]
      have : (1 : ℚ) / 2 ^ 53 * 2 ^ n ≤ 1 := by
        rw [one_div, inv_mul_le_iff₀ (by positivity)]
        simpa using h53
      nlinarith
    · have h54 : (2 : ℚ) ^ 54 ≤ 2 ^ n := pow_le_pow_right₀ (by norm_num) hn
      have hm1 : (m : ℚ) ≤ 9007199254740991 := by
        have h5 : m ≤ 9007199254740991 := by
          norm_num at hm
          omega
        exact_mod_cast h5
      rw [mul_one_div, div_le_iff₀ hpos]
      norm_num at h54 ⊢
      linarith

/-- The integer `Math.floor(Math.random() * 220)` is between 0 and 219 for every double
draw below 1. -/
lemma floor_draw_bounds (m : Nat) (e : Int) (hm : m < 2 ^ 53) (h : doubleOf m e < 1) :
    0 ≤ ⌊roundDouble (doubleOf m e * (((300 - 40 : Int) - 40 : Int) : ℚ))⌋ ∧
    ⌊roundDouble (doubleOf m e * (((300 - 40 : Int) - 40 : Int) : ℚ))⌋ < 220 := by
  have h0 := doubleOf_nonneg m e
  have h1 := doubleOf_le_pred_one m e hm h
  have hc : ((((300 - 40 : Int) - 40 : Int)) : ℚ) = 220 := by norm_num
  rw [hc]
  constructor
  · exact Int.floor_nonneg.mpr (roundDouble_nonneg _ (by positivity))
  · apply Int.floor_lt.mpr
    have hq : doubleOf m e * 220 ≤ 220 - 220 / 2 ^ 53 := by
      norm_num at h1 ⊢
      linarith
    exact_mod_cast roundDouble_lt_220 _ hq

/-- C18. For every pair of draws of `Math.random()`, doubles in [0, 1) given by their
significands `m1`, `m2` below 2 ^ 53 and their exponents, `randomExit` returns integer
coordinates with `40 <= x <= 259` and `40 <= y <= 259`, the product of a draw and 220
being rounded to the nearest double as the code rounds it; the 32 by 32 box
`handleKey` tests for the exit then lies inside the 300 by 300 room, at least 40 from
the left and top walls. -/
theorem randomExit_in_room (m1 m2 : Nat) (k1 k2 : Int)
    (hm1 : m1 < 2 ^ 53) (h1 : doubleOf m1 k1 < 1)
    (hm2 : m2 < 2 ^ 53) (h2 : doubleOf m2 k2 < 1) :
    40 ≤ (randomExit (doubleOf m1 k1) (doubleOf m2 k2)).x ∧
    (randomExit (doubleOf m1 k1) (doubleOf m2 k2)).x ≤ 259 ∧
    40 ≤ (randomExit (doubleOf m1 k1) (doubleOf m2 k2)).y ∧
    (randomExit (doubleOf m1 k1) (doubleOf m2 k2)).y ≤ 259 ∧
    (∀ ex : Exit, ex.x = (randomExit (doubleOf m1 k1) (doubleOf m2 k2)).x →
      ex.y = (randomExit (doubleOf m1 k1) (doubleOf m2 k2)).y →
      40 ≤ (exitBox ex).x ∧ (exitBox ex).x + (exitBox ex).w ≤ 300 ∧
      40 ≤ (exitBox ex).y ∧ (exitBox ex).y + (exitBox ex).h ≤ 300) := by
  obtain ⟨a1, a2⟩ := floor_draw_bounds m1 k1 hm1 h1
  obtain ⟨b1, b2⟩ := floor_draw_bounds m2 k2 hm2 h2
  have hx : (randomExit (doubleOf m1 k1) (doubleOf m2 k2)).x =
      ⌊roundDouble (doubleOf m1 k1 * (((300 - 40 : Int) - 40 : Int) : ℚ))⌋ + 40 := rfl
  have hy : (randomExit (doubleOf m1 k1) (doubleOf m2 k2)).y =
      ⌊roundDouble (doubleOf m2 k2 * (((300 - 40 : Int) - 40 : Int) : ℚ))⌋ + 40 := rfl
  refine ⟨by omega, by omega, by omega, by omega, ?_⟩
  intro ex hex hey
  simp only [exitBox]
  omega

/-- The draw 696010851502713 / 2 ^ 52: the exact product with 220 is just below 34 and
rounds to the double 34. -/
lemma floor_draw_rounds_up :
    ⌊roundDouble (doubleOf 696010851502713 (-52) * 220)⌋ = 34 := by
  have hu : ulp (doubleOf 696010851502713 (-52) * 220) = (2 : ℚ) ^ ((5 : Int) - 52) :=
    ulp_of_binade _ 5 (by norm_num) (by norm_num [doubleOf]) (by norm_num [doubleOf])
  unfold roundDouble
  rw [hu]
  norm_num [doubleOf, roundHalfEven]

/-- The largest double below 1, `(2 ^ 53 - 1) / 2 ^ 53`: the product with 220 rounds to
the double just below 220. -/
lemma floor_draw_largest :
    ⌊roundDouble (doubleOf 9007199254740991 (-53) * 220)⌋ = 219 := by
  have hu : ulp (doubleOf 9007199254740991 (-53) * 220) = (2 : ℚ) ^ ((7 : Int) - 52) :=
    ulp_of_binade _ 7 (by norm_num) (by norm_num [doubleOf]) (by norm_num [doubleOf])
  unfold roundDouble
  rw [hu]
  norm_num [doubleOf, roundHalfEven]

/-- Witness of C18: the draws 696010851502713 / 2 ^ 52, whose product with 220 rounds up
to 34, and `(2 ^ 53 - 1) / 2 ^ 53`, the largest double below 1, give the exit
(74, 259). -/
theorem randomExit_in_room_witness :
    randomExit (doubleOf 696010851502713 (-52)) (doubleOf 9007199254740991 (-53)) =
      { x := 74, y := 259 } ∧
    40 ≤ (randomExit (doubleOf 696010851502713 (-52))
      (doubleOf 9007199254740991 (-53))).x ∧
    (randomExit (doubleOf 696010851502713 (-52))
      (doubleOf 9007199254740991 (-53))).x ≤ 259 ∧
    40 ≤ (randomExit (doubleOf 696010851502713 (-52))
      (doubleOf 9007199254740991 (-53))).y ∧
    (randomExit (doubleOf 696010851502713 (-52))
      (doubleOf 9007199254740991 (-53))).y ≤ 259 :=
  have h := randomExit_in_room 696010851502713 9007199254740991 (-52) (-53)
    (by norm_num) (by norm_num [doubleOf]) (by norm_num) (by norm_num [doubleOf])
  have hv : randomExit (doubleOf 696010851502713 (-52))
      (doubleOf 9007199254740991 (-53)) = { x := 74, y := 259 } := by
    have e1 : (((300 - 40 : Int) - 40 : Int) : ℚ) = 220 := by norm_num
    simp only [randomExit, e1, floor_draw_rounds_up, floor_draw_largest]
    rfl
  ⟨hv, h.1, h.2.1, h.2.2.1, h.2.2.2.1⟩

/-! ## The code prompt -/

/-- The dialogs of `handleKey`: it calls `prompt` only at a locked exit with no
power-up left. -/
lemma handleKey_effects (s : GameState) (e : KeyEvent) (reply : Option String)
    (t : GameState) (eff : List Effect) (h : handleKey s e reply = some (t, eff)) :
    (∀ m, Effect.prompt m ∉ eff) ∨
    ∃ lv, level s = some lv ∧ lv.exit.locked = true ∧ remaining lv = 0 := by
  unfold handleKey at h
  by_cases hr : e.isRepeat = true
  · simp only [hr, if_true, Option.some.injEq, Prod.mk.injEq] at h
    exact Or.inl (fun m => by simp [← h.2])
  simp only [hr, if_false, Bool.false_eq_true] at h
  by_cases hgq : (s.gameOver || s.activeQuestion.isSome) = true
  · simp only [hgq, if_true, Option.some.injEq, Prod.mk.injEq] at h
    exact Or.inl (fun m => by simp [← h.2])
  simp only [hgq, if_false, Bool.false_eq_true] at h
  cases hl : level s with
  | none => simp [hl] at h
  | some lv =>
    simp only [hl] at h
    by_cases hen : lv.enemies.any (fun en => hit (candidate s.player e) en) = true
    · simp only [hen, if_true, Option.some.injEq, Prod.mk.injEq] at h
      exact Or.inl (fun m => by simp [← h.2])
    simp only [hen, if_false, Bool.false_eq_true] at h
    by_cases hob : (lv.obstacles.any (fun ob => hit (candidate s.player e) ob) ||
        lv.moving.any (fun mov => hit (candidate s.player e) mov.rect)) = true
    · simp only [hob, if_true, Option.some.injEq, Prod.mk.injEq] at h
      exact Or.inl (fun m => by simp [← h.2])
    simp only [hob, if_false, Bool.false_eq_true] at h
    cases hpu : detectPowerup lv (candidate s.player e) with
    | some pu =>
      simp only [hpu, Option.some.injEq, Prod.mk.injEq] at h
      exact Or.inl (fun m => by simp [← h.2])
    | none =>
      simp only [hpu] at h
      by_cases hex : hit (candidate s.player e)
          { x := lv.exit.x, y := lv.exit.y, w := 32, h := 32 } = true
      · simp only [hex, if_true] at h
        by_cases hlk : lv.exit.locked = true
        · simp only [hlk, if_true] at h
          by_cases hrem : remaining lv > 0
          · simp only [hrem, if_true, Option.some.injEq, Prod.mk.injEq] at h
            exact Or.inl (fun m => by simp [← h.2])
          · exact Or.inr ⟨lv, rfl, hlk, by omega⟩
        · simp only [hlk, if_false, Bool.false_eq_true] at h
          by_cases hadv : s.levelIndex + 1 < s.levels.length
          · simp only [hadv, if_true, Option.some.injEq, Prod.mk.injEq] at h
            exact Or.inl (fun m => by simp [← h.2])
          · simp only [hadv, if_false, Option.some.injEq, Prod.mk.injEq] at h
            exact Or.inl (fun m => by simp [← h.2])
      · simp only [hex, if_false, Bool.false_eq_true, Option.some.injEq,
          Prod.mk.injEq] at h
        exact Or.inl (fun m => by simp [← h.2])

lemma levelChange_locked_remaining (s : GameState) (ev : Event) (lv lv' : Level)
    (h : LevelChange s ev lv lv')
    (hinv : lv.exit.locked = true → 0 < remaining lv) :
    lv'.exit.locked = true → 0 < remaining lv' := by
  rcases h with ⟨-, rfl⟩ | ⟨e, -, -, -, -, rfl⟩ | ⟨aq, -, -, -, rfl⟩
  · exact hinv
  · intro h
    simp at h
  · unfold collect
    dsimp only
    by_cases hrem : remaining { lv with powerups := markCollected lv.powerups aq.id } = 0
    · rw [if_pos hrem]
      intro h
      simp at h
    · rw [if_neg hrem]
      intro _
      omega

/-- In every reachable state a locked exit has a power-up of its level uncollected. -/
lemma reachable_locked_remaining (e1 e2 : Pos) (s : GameState) (hr : Reachable e1 e2 s) :
    ∀ lv ∈ s.levels, lv.exit.locked = true → 0 < remaining lv := by
  induction hr with
  | init =>
    intro lv hlv _
    simp only [initialState, LEVELS, LEVELS_TEMPLATE, List.mem_cons, List.mem_singleton,
      List.not_mem_nil, or_false] at hlv
    rcases hlv with rfl | rfl <;> simp [remaining]
  | next s t ev _ hst ih =>
    intro lv hlv
    rcases step_levels s t ev hst with h0 | ⟨a, a', hl, hset, hch⟩
    · exact ih lv (h0 ▸ hlv)
    · rw [hset] at hlv
      rcases List.mem_or_eq_of_mem_set hlv with hm | rfl
      · exact ih lv hm
      · exact levelChange_locked_remaining s ev a lv hch (ih a (List.getElem?_mem hl))

/-- C19. In every state reachable from the initial state, for every pair of exit
positions and in every level, the exit is locked if and only if some power-up of that
level is uncollected.  Hence in a reachable state no call of `handleKey`, for any key
and any reply, opens the `prompt` for an unlock code. -/
theorem locked_iff_uncollected (e1 e2 : Pos) (s : GameState) (hr : Reachable e1 e2 s) :
    (∀ lv ∈ s.levels,
      (lv.exit.locked = true ↔ ∃ p ∈ lv.powerups, p.collected = false)) ∧
    (∀ (e : KeyEvent) (reply : Option String) (t : GameState) (eff : List Effect),
      handleKey s e reply = some (t, eff) → ∀ m, Effect.prompt m ∉ eff) := by
  have hlock := reachable_locked_remaining e1 e2 s hr
  have hunl := reachable_unlocked_collected e1 e2 s hr
  constructor
  · intro lv hlv
    constructor
    · intro hlk
      have hpos := hlock lv hlv hlk
      by_contra hno
      have hall : ∀ p ∈ lv.powerups, p.collected = true := by
        intro p hp
        cases hc : p.collected with
        | true => rfl
        | false => exact absurd ⟨p, hp, hc⟩ hno
      have := (remaining_eq_zero_iff lv).mpr hall
      omega
    · rintro ⟨p, hp, hc⟩
      cases hlk : lv.exit.locked with
      | true => rfl
      | false =>
        have := hunl lv hlv hlk p hp
        rw [hc] at this
        exact absurd this (by simp)
  · intro e reply t eff h
    rcases handleKey_effects s e reply t eff h with h0 | ⟨lv, hl, hlk, hrem⟩
    · exact h0
    · have := hlock lv (List.getElem?_mem hl) hlk
      omega

/-- Witness of C19: after the play `playLevel1` the exit of level 1 is unlocked and no
power-up of level 1 is uncollected. -/
theorem locked_iff_uncollected_witness :
    ((level1 { x := 100, y := 100 } true true false).exit.locked = true ↔
      ∃ p ∈ (level1 { x := 100, y := 100 } true true false).powerups,
        p.collected = false) :=
  (locked_iff_uncollected { x := 100, y := 100 } { x := 100, y := 100 } finishedState
    reachable_finishedState).1 (level1 { x := 100, y := 100 } true true false) (by decide)

/-! ## The player and the static obstacles -/

lemma levelChange_statics (s : GameState) (ev : Event) (lv lv' : Level)
    (h : LevelChange s ev lv lv') :
    lv'.obstacles = lv.obstacles ∧ lv'.enemies = lv.enemies := by
  rcases h with ⟨-, rfl⟩ | ⟨e, -, -, -, -, rfl⟩ | ⟨aq, -, -, -, rfl⟩
  · exact ⟨rfl, rfl⟩
  · exact ⟨rfl, rfl⟩
  · unfold collect
    dsimp only
    split <;> exact ⟨rfl, rfl⟩

/-- In every reachable state the static obstacles and the enemies of every level are
those of the template. -/
lemma reachable_statics (e1 e2 : Pos) (s : GameState) (hr : Reachable e1 e2 s) :
    ∀ (i : Nat) (lv : Level), s.levels[i]? = some lv →
      ∃ lv0, (LEVELS e1 e2)[i]? = some lv0 ∧
        lv.obstacles = lv0.obstacles ∧ lv.enemies = lv0.enemies := by
  induction hr with
  | init =>
    intro i lv hl
    exact ⟨lv, hl, rfl, rfl⟩
  | next s t ev _ hst ih =>
    intro i lv hl
    have hlen := step_levels_length s t ev hst
    have hi : i < s.levels.length := by
      obtain ⟨h, -⟩ := List.getElem?_eq_some.mp hl
      omega
    have ha : s.levels[i]? = some (s.levels[i]) := List.getElem?_eq_getElem hi
    obtain ⟨lv0, h0, hob, hen⟩ := ih i _ ha
    rcases step_level_at s t ev hst i _ ha with h1 | ⟨lv', -, h1, hch⟩
    · rw [hl] at h1
      exact ⟨lv0, h0, Option.some.inj h1 ▸ hob, Option.some.inj h1 ▸ hen⟩
    · rw [hl] at h1
      obtain ⟨c1, c2⟩ := levelChange_statics s ev _ lv' hch
      rw [Option.some.inj h1]
      exact ⟨lv0, h0, c1.trans hob, c2.trans hen⟩

/-- The spawn (10, 10) is clear of the static obstacles and enemies of both levels. -/
lemma spawn_clear (e1 e2 : Pos) (i : Nat) (lv0 : Level)
    (h : (LEVELS e1 e2)[i]? = some lv0) :
    lv0.enemies.any (fun en => hit { x := 10, y := 10 } en) = false ∧
    lv0.obstacles.any (fun ob => hit { x := 10, y := 10 } ob) = false := by
  have hm : lv0 ∈ LEVELS e1 e2 := List.getElem?_mem h
  simp only [LEVELS, LEVELS_TEMPLATE, List.mem_cons, List.mem_singleton,
    List.not_mem_nil, or_false] at hm
  rcases hm with rfl | rfl <;> exact ⟨by simp [hit], by simp [hit]⟩

/-- In every reachable state the player overlaps no enemy and no static obstacle of the
current level. -/
lemma reachable_player_clear (e1 e2 : Pos) (s : GameState) (hr : Reachable e1 e2 s) :
    ∀ lv, level s = some lv →
      lv.enemies.any (fun en => hit s.player en) = false ∧
      lv.obstacles.any (fun ob => hit s.player ob) = false := by
  induction hr with
  | init =>
    intro lv hl
    exact spawn_clear e1 e2 0 lv hl
  | next s t ev hs hst ih =>
    intro lv hl
    have ht : Reachable e1 e2 t := Reachable.next s t ev hs hst
    obtain ⟨lv0, h0, hob, hen⟩ := reachable_statics e1 e2 t ht t.levelIndex lv hl
    rcases step_player_level s t ev hst with ⟨hp, hi⟩ | ⟨hp, -⟩ | ⟨e, a, ha, hp, hi, hlv, c1, c2⟩
    · have hidx := (reachable_levelIndex e1 e2 s hs).2
      have hsl : level s = some (s.levels[s.levelIndex]) := List.getElem?_eq_getElem hidx
      obtain ⟨a0, ha0, aob, aen⟩ := reachable_statics e1 e2 s hs s.levelIndex _ hsl
      rw [hi] at h0
      rw [h0] at ha0
      have heq : lv0 = a0 := Option.some.inj ha0
      obtain ⟨k1, k2⟩ := ih _ hsl
      rw [hp, hen, hob, heq, ← aen, ← aob]
      exact ⟨k1, k2⟩
    · obtain ⟨k1, k2⟩ := spawn_clear e1 e2 t.levelIndex lv0 h0
      rw [hp, hen, hob]
      exact ⟨k1, k2⟩
    · have hla : lv = a := by
        have : some lv = some a := by rw [← hl, ← ha, level, level, hlv, hi]
        exact Option.some.inj this
      rw [hp, hla]
      exact ⟨c1, c2⟩

set_option maxRecDepth 100000 in
lemma reachable_underMovingState :
    Reachable { x := 100, y := 100 } { x := 100, y := 100 } underMovingState :=
  reachable_run (playExit1 ++ playBesideMoving) _ _ reachable_finishedState (by decide)

/-- C20. In every state reachable from the initial state, for every pair of exit
positions, the player's 30 by 30 box overlaps no enemy and no static obstacle of the
current level: the spawn (10, 10) is clear in both levels, and a move is committed
only to a candidate that hits neither.  Moving obstacles are not covered: the state
`underMovingState` is reachable, and in it the player at (190, 90) overlaps the moving
obstacle of level 2, which one tick has moved from x = 150 to x = 152. -/
theorem player_clear_of_statics (e1 e2 : Pos) (s : GameState) (hr : Reachable e1 e2 s)
    (lv : Level) (hl : level s = some lv) :
    lv.enemies.any (fun en => hit s.player en) = false ∧
    lv.obstacles.any (fun ob => hit s.player ob) = false ∧
    (∀ (i : Nat) (lv0 : Level), (LEVELS e1 e2)[i]? = some lv0 →
      lv0.enemies.any (fun en => hit { x := 10, y := 10 } en) = false ∧
      lv0.obstacles.any (fun ob => hit { x := 10, y := 10 } ob) = false) ∧
    (Reachable { x := 100, y := 100 } { x := 100, y := 100 } underMovingState ∧
      (level underMovingState).map
        (fun l => l.moving.any (fun mov => hit underMovingState.player mov.rect)) =
          some true) := by
  obtain ⟨k1, k2⟩ := reachable_player_clear e1 e2 s hr lv hl
  exact ⟨k1, k2, spawn_clear e1 e2, reachable_underMovingState, by decide⟩

/-- Witness of C20: in `underMovingState` the player overlaps neither the enemy nor the
static obstacle of level 2. -/
theorem player_clear_of_statics_witness :
    (level2 { x := 100, y := 100 }
        { x := 152, y := 100, w := 40, h := 16, dx := 2 }).enemies.any
      (fun en => hit underMovingState.player en) = false ∧
    (level2 { x := 100, y := 100 }
        { x := 152, y := 100, w := 40, h := 16, dx := 2 }).obstacles.any
      (fun ob => hit underMovingState.player ob) = false :=
  have h := player_clear_of_statics { x := 100, y := 100 } { x := 100, y := 100 }
    underMovingState reachable_underMovingState
    (level2 { x := 100, y := 100 } { x := 152, y := 100, w := 40, h := 16, dx := 2 }) rfl
  ⟨h.1, h.2.1⟩

end EscapeTheProgram
